import Mathlib

/-!
Act2MilkShape: Genesis3D actor body to MilkShape 3D model.

A shallow embedding of `src/common/act2ms3d.h`, `src/common/ms3d.h` and the
model construction in `src/main.cpp`.

Conventions of the embedding.

* `geFloat` values are exact rationals: floating-point rounding is not
  modelled, so every numeric statement is one of exact arithmetic.
* C++ integers that the code stores in a narrower field are wrapped
  explicitly: `toUInt16` for `uint16_t` fields, `toChar` for the (signed)
  `char` fields, `toUInt8` for `uint8_t` fields.
* The counts and indices of a body have the SDK type `geBody_Index`, a 16-bit
  signed integer. The embedding carries them as integers, as the code does
  once it has read them into an `int`; where a statement depends on the range
  of the type, the range is a hypothesis stated with `geBody_Index_MAX`.
* Arrays are lists; the count that travels with a C array is the length of the
  list.  A read outside an array is undefined in C++ and is `none` here.
* Fixed-width `char[N]` fields hold the C string that was copied into them. A
  name that does not fit its field overruns it in the source: the converter
  is `none` on such a name (`copyInto`), and the writer cuts a string at the
  width of its field.
* The conversion returns `Option`: `none` is a run that reads outside an array
  or exhausts the recursion budget `fuel` of the transform resolver.
-/

namespace act2ms3d

/-! ## Machine integers -/

/-- Conversion of an integer to `uint16_t`. -/
def toUInt16 (x : Int) : Nat := (x % 65536).toNat

/-- Conversion of an integer to `uint8_t`. -/
def toUInt8 (x : Int) : Nat := (x % 256).toNat

/-- Conversion of an integer to `char`, a signed 8-bit integer on the targets of
the program (`ms3d.h` documents `-1` as a value of its `char` fields). -/
def toChar (x : Int) : Int := (x + 128) % 256 - 128

/-- Post-increment of a `uint16_t` counter. -/
def incUInt16 (n : Nat) : Nat := (n + 1) % 65536

/-! ## Source model (Genesis3D body) -/

/-- The scalar type of the Genesis3D SDK, taken as exact. -/
abbrev geFloat := ℚ

/-- SDK vector `geVec3d`. -/
structure geVec3d where
  X : geFloat
  Y : geFloat
  Z : geFloat
deriving DecidableEq, Inhabited

/-- SDK affine transform `geXForm3d`: a 3x3 block (rows A, B, C) and a
translation. -/
structure geXForm3d where
  AX : geFloat
  AY : geFloat
  AZ : geFloat
  BX : geFloat
  BY : geFloat
  BZ : geFloat
  CX : geFloat
  CY : geFloat
  CZ : geFloat
  Translation : geVec3d
deriving DecidableEq, Inhabited

/-- SDK quaternion `geQuaternion`. -/
structure geQuaternion where
  W : geFloat
  X : geFloat
  Y : geFloat
  Z : geFloat
deriving DecidableEq, Inhabited

/-- Skin vertex of a body: position in the space of its bone, texture
coordinates, owning bone. -/
structure geBody_XSkinVertex where
  XPoint : geVec3d
  XU : geFloat
  XV : geFloat
  BoneIndex : Int
deriving DecidableEq, Inhabited

/-- Skin normal of a body. -/
structure geBody_Normal where
  Normal : geVec3d
deriving DecidableEq, Inhabited

/-- Bone of a body: attachment transform relative to the parent, and the index
of the parent (`-1` for a root). -/
structure geBody_Bone where
  AttachmentMatrix : geXForm3d
  ParentBoneIndex : Int
deriving DecidableEq, Inhabited

/-- Face of a body: `VtxIndex[3]`, `NormalIndex[3]`, `MaterialIndex`, each a
`geBody_Index` that the code reads into an `int`. -/
structure geBody_Triangle where
  VtxIndex : Fin 3 → Int
  NormalIndex : Fin 3 → Int
  MaterialIndex : Int

/-- The fields of `geBody` that the converter reads. `FaceArray` is
`SkinFaces[0].FaceArray`; `BoneNames` and `MaterialNames` are the strings of
the two `geStrBlock`s, in index order. -/
structure geBody where
  XSkinVertexArray : List geBody_XSkinVertex
  SkinNormalArray : List geBody_Normal
  BoneArray : List geBody_Bone
  BoneNames : List String
  MaterialCount : Nat
  MaterialNames : List String
  FaceArray : List geBody_Triangle

/-- Field `XSkinVertexCount`. -/
def geBody.XSkinVertexCount (body : geBody) : Nat := body.XSkinVertexArray.length

/-- Field `SkinFaces[0].FaceCount`. -/
def geBody.FaceCount (body : geBody) : Nat := body.FaceArray.length

/-- Field `BoneCount`. -/
def geBody.BoneCount (body : geBody) : Nat := body.BoneArray.length

/-- Largest value of the SDK type `geBody_Index` (a 16-bit signed integer), the
type of `XSkinVertexCount`, `FaceCount`, `BoneCount`, `MaterialCount` and of
every vertex, normal, bone and material index of a body. -/
def geBody_Index_MAX : Nat := 32767

/-- Indexed read `a[i]` of a C array with an `int` index. -/
def readAt {α : Type} (a : List α) (i : Int) : Option α :=
  if 0 ≤ i then a.get? i.toNat else none

/-! ## Target model (`ms3d.h`) -/

/-- Record `ms3d_header_t`: `char id[10]` (as character codes) and `int version`. -/
structure ms3d_header_t where
  id : List Nat
  version : Int
deriving DecidableEq, Inhabited

/-- Record `ms3d_vertex_t`. -/
structure ms3d_vertex_t where
  flags : Nat
  vertex : Fin 3 → geFloat
  boneId : Int
  referenceCount : Nat

/-- Record `ms3d_triangle_t`. -/
structure ms3d_triangle_t where
  flags : Nat
  vertexIndices : Fin 3 → Nat
  vertexNormals : Fin 3 → Fin 3 → geFloat
  s : Fin 3 → geFloat
  t : Fin 3 → geFloat
  smoothingGroup : Nat
  groupIndex : Nat

/-- Record `ms3d_material_t`. -/
structure ms3d_material_t where
  name : String
  ambient : Fin 4 → geFloat
  diffuse : Fin 4 → geFloat
  specular : Fin 4 → geFloat
  emissive : Fin 4 → geFloat
  shininess : geFloat
  transparency : geFloat
  mode : Int
  texture : String
  alphamap : String

/-- Record `ms3d_joint_t`. -/
structure ms3d_joint_t where
  flags : Nat
  name : String
  parentName : String
  rotation : Fin 3 → geFloat
  position : Fin 3 → geFloat
  numKeyFramesRot : Nat
  numKeyFramesTrans : Nat

/-- Record `ms3d_group_t`; `numtriangles` is a `uint16_t`, `triangleIndices` a
vector of `uint16_t`, `materialIndex` a `char`. -/
structure ms3d_group_t where
  flags : Nat
  name : String
  numtriangles : Nat
  triangleIndices : List Nat
  materialIndex : Int
deriving DecidableEq, Inhabited

/-- Record `ms3d_anim_controls_t`. -/
structure ms3d_anim_controls_t where
  animationFPS : geFloat
  currentTime : geFloat
  totalFrames : Nat
deriving DecidableEq, Inhabited

/-- Record `ms3d_model_t`. -/
structure ms3d_model_t where
  header : ms3d_header_t
  vertices : List ms3d_vertex_t
  triangles : List ms3d_triangle_t
  groups : List ms3d_group_t
  materials : List ms3d_material_t
  animControls : ms3d_anim_controls_t
  joints : List ms3d_joint_t

/-! ## Group filling (`ConvertGeBodyToMS3D`, step 4) -/

/-- Value-initialised group `ms3d_group_t{}`. -/
def ms3d_group_t.empty : ms3d_group_t :=
  { flags := 0, name := "", numtriangles := 0, triangleIndices := [], materialIndex := 0 }

/-- The two assignments that open a group: `materialIndex` receives the face's
material index cast to `char`, `name` receives `"Group %d"` of the size of the
group list plus one. -/
def openGroup (g : ms3d_group_t) (MaterialIndex : Int) (groupListSize : Nat) : ms3d_group_t :=
  { g with materialIndex := toChar MaterialIndex,
           name := "Group " ++ toString (groupListSize + 1) }

/-- State of the group loop: `groupList`, `currentGroup`, `numGlobalTriangles`. -/
structure GroupState where
  groupList : List ms3d_group_t
  currentGroup : ms3d_group_t
  numGlobalTriangles : Nat
deriving DecidableEq

/-- One iteration of the loop over the faces. -/
def groupStep (st : GroupState) (triangle : geBody_Triangle) : GroupState :=
  let st1 : GroupState :=
    if triangle.MaterialIndex ≠ st.currentGroup.materialIndex then
      { st with groupList := st.groupList ++ [st.currentGroup],
                currentGroup := openGroup ms3d_group_t.empty triangle.MaterialIndex
                  (st.groupList ++ [st.currentGroup]).length }
    else st
  { st1 with
    currentGroup :=
      { st1.currentGroup with
        triangleIndices := st1.currentGroup.triangleIndices ++ [toUInt16 st1.numGlobalTriangles],
        numtriangles := incUInt16 st1.currentGroup.numtriangles },
    numGlobalTriangles := st1.numGlobalTriangles + 1 }

/-- Material index that seeds the first group, `FaceArray[0].MaterialIndex`.
With no face the source reads past the array; the value read is then never
used (the loop does not run and the empty group is not pushed), and is 0 here. -/
def firstMaterialIndex (faces : List geBody_Triangle) : Int :=
  match faces with
  | [] => 0
  | triangle :: _ => triangle.MaterialIndex

/-- State before the loop. -/
def groupInit (faces : List geBody_Triangle) : GroupState :=
  { groupList := [],
    currentGroup := openGroup ms3d_group_t.empty (firstMaterialIndex faces) 0,
    numGlobalTriangles := 0 }

/-- Push of the last group, made when its `numtriangles` is positive. -/
def groupFinish (st : GroupState) : List ms3d_group_t :=
  if st.currentGroup.numtriangles > 0 then st.groupList ++ [st.currentGroup] else st.groupList

/-- The group list assigned to `model.groups`. -/
def fillGroups (faces : List geBody_Triangle) : List ms3d_group_t :=
  groupFinish (faces.foldl groupStep (groupInit faces))

/-! ## Transforms (Genesis3D SDK) and the transform resolver -/

/-- SDK function `geXForm3d_Multiply(M1, M2, MProduct)`: the product `M1 * M2`
of two affine transforms (`M2` is applied first, then `M1`). -/
def geXForm3d_Multiply (M1 M2 : geXForm3d) : geXForm3d :=
  { AX := M1.AX * M2.AX + M1.AY * M2.BX + M1.AZ * M2.CX,
    AY := M1.AX * M2.AY + M1.AY * M2.BY + M1.AZ * M2.CY,
    AZ := M1.AX * M2.AZ + M1.AY * M2.BZ + M1.AZ * M2.CZ,
    BX := M1.BX * M2.AX + M1.BY * M2.BX + M1.BZ * M2.CX,
    BY := M1.BX * M2.AY + M1.BY * M2.BY + M1.BZ * M2.CY,
    BZ := M1.BX * M2.AZ + M1.BY * M2.BZ + M1.BZ * M2.CZ,
    CX := M1.CX * M2.AX + M1.CY * M2.BX + M1.CZ * M2.CX,
    CY := M1.CX * M2.AY + M1.CY * M2.BY + M1.CZ * M2.CY,
    CZ := M1.CX * M2.AZ + M1.CY * M2.BZ + M1.CZ * M2.CZ,
    Translation :=
      { X := M1.AX * M2.Translation.X + M1.AY * M2.Translation.Y + M1.AZ * M2.Translation.Z
               + M1.Translation.X,
        Y := M1.BX * M2.Translation.X + M1.BY * M2.Translation.Y + M1.BZ * M2.Translation.Z
               + M1.Translation.Y,
        Z := M1.CX * M2.Translation.X + M1.CY * M2.Translation.Y + M1.CZ * M2.Translation.Z
               + M1.Translation.Z } }

/-- SDK function `geXForm3d_Transform(M, V, Result)`: the image of a point. -/
def geXForm3d_Transform (M : geXForm3d) (V : geVec3d) : geVec3d :=
  { X := V.X * M.AX + V.Y * M.AY + V.Z * M.AZ + M.Translation.X,
    Y := V.X * M.BX + V.Y * M.BY + V.Z * M.BZ + M.Translation.Y,
    Z := V.X * M.CX + V.Y * M.CY + V.Z * M.CZ + M.Translation.Z }

/-- What the converter takes from outside the sources: the C library functions
`atan2` and `asin`, the SDK function `geQuaternion_FromMatrix`, and the
indeterminate contents of a `geXForm3d` local that is declared without an
initialiser. -/
structure Runtime where
  atan2 : geFloat → geFloat → geFloat
  asin : geFloat → geFloat
  geQuaternion_FromMatrix : geXForm3d → geQuaternion
  indeterminate : geXForm3d

/-- Function `GetGlobalTransformationMatrix(boneIndex, globalMatrix, body)`.
The argument `globalMatrix` is the value of the output transform before the
call and the result is its value after the call. `fuel` bounds the depth of
the recursion; `none` stands for a run that exhausts it or reads outside
`BoneArray`. `parentGlobal` is the uninitialised local of the same name. -/
def GetGlobalTransformationMatrix (parentGlobal : geXForm3d) (body : geBody) :
    Nat → Int → geXForm3d → Option geXForm3d
  | 0, _, _ => none
  | fuel + 1, boneIndex, globalMatrix =>
    if boneIndex = -1 then some globalMatrix
    else
      match readAt body.BoneArray boneIndex with
      | none => none
      | some bone =>
        let localMatrix := bone.AttachmentMatrix
        let parentBoneIndex := bone.ParentBoneIndex
        if parentBoneIndex ≠ -1 then
          match GetGlobalTransformationMatrix parentGlobal body fuel parentBoneIndex parentGlobal with
          | none => none
          | some parentGlobal1 => some (geXForm3d_Multiply parentGlobal1 localMatrix)
        else some localMatrix

/-! ## Rotation conversion -/

/-- The constant `M_PI` of `QuaternionToEuler`. -/
def M_PI : geFloat := 314159265358979323846 / 100000000000000000000

/-- C library `copysign`: the magnitude of the first argument with the sign of
the second. -/
def copysign (x y : geFloat) : geFloat := if y < 0 then -|x| else |x|

/-- Pitch argument `sinp` of `QuaternionToEuler`. -/
def sinp (q : geQuaternion) : geFloat := 2 * (q.W * q.Y - q.Z * q.X)

/-- Function `QuaternionToEuler(q, angles)`: the value stored in `angles`. -/
def QuaternionToEuler (rt : Runtime) (q : geQuaternion) : geVec3d :=
  let sinr_cosp := 2 * (q.W * q.X + q.Y * q.Z)
  let cosr_cosp := 1 - 2 * (q.X * q.X + q.Y * q.Y)
  let roll := rt.atan2 sinr_cosp cosr_cosp
  let pitch := if |sinp q| ≥ 1 then copysign (M_PI / 2) (sinp q) else rt.asin (sinp q)
  let siny_cosp := 2 * (q.W * q.Z + q.X * q.Y)
  let cosy_cosp := 1 - 2 * (q.Y * q.Y + q.Z * q.Z)
  let yaw := rt.atan2 siny_cosp cosy_cosp
  { X := roll, Y := pitch, Z := yaw }

/-! ## The converter -/

/-- A counted loop `for (i = start; i < start + count; ++i)` whose iteration `i`
rewrites element `i` of a vector of the target model; the list argument is the
vector from position `start` on. `none` stands for a failed iteration or a
write past the end of the vector. -/
def updateFrom {β : Type} (f : Nat → β → Option β) : Nat → Nat → List β → Option (List β)
  | _, 0, out => some out
  | _, _ + 1, [] => none
  | start, count + 1, b :: bs =>
    match f start b with
    | none => none
    | some b1 =>
      match updateFrom f (start + 1) count bs with
      | none => none
      | some rest => some (b1 :: rest)

/-- Body of the vertex loop (step 2) for vertex `i`. -/
def convertVertex (rt : Runtime) (fuel : Nat) (body : geBody) (i : Nat) (_v : ms3d_vertex_t) :
    Option ms3d_vertex_t :=
  match body.XSkinVertexArray.get? i with
  | none => none
  | some sv =>
    let boneIndex := sv.BoneIndex
    match GetGlobalTransformationMatrix rt.indeterminate body fuel boneIndex rt.indeterminate with
    | none => none
    | some globalMatrix =>
      let transformedVertex := geXForm3d_Transform globalMatrix sv.XPoint
      some { flags := 0,
             vertex := ![transformedVertex.X, transformedVertex.Y, transformedVertex.Z],
             boneId := toChar boneIndex,
             referenceCount := 0 }

/-- Body of the triangle loop (step 3) for face `i`. -/
def convertTriangle (body : geBody) (i : Nat) (_t : ms3d_triangle_t) : Option ms3d_triangle_t :=
  match body.FaceArray.get? i with
  | none => none
  | some triangle =>
    match readAt body.SkinNormalArray (triangle.NormalIndex 0),
          readAt body.SkinNormalArray (triangle.NormalIndex 1),
          readAt body.SkinNormalArray (triangle.NormalIndex 2),
          readAt body.XSkinVertexArray (triangle.VtxIndex 0),
          readAt body.XSkinVertexArray (triangle.VtxIndex 1),
          readAt body.XSkinVertexArray (triangle.VtxIndex 2) with
    | some n0, some n1, some n2, some v0, some v1, some v2 =>
      some { flags := 0,
             vertexIndices := fun j => toUInt16 (triangle.VtxIndex j),
             vertexNormals := ![![n0.Normal.X, n0.Normal.Y, n0.Normal.Z],
                                ![n1.Normal.X, n1.Normal.Y, n1.Normal.Z],
                                ![n2.Normal.X, n2.Normal.Y, n2.Normal.Z]],
             s := ![v0.XU, v1.XU, v2.XU],
             t := ![v0.XV, v1.XV, v2.XV],
             smoothingGroup := 1,
             groupIndex := 0 }
    | _, _, _, _, _, _ => none

/-- Function `GetMaterialNames`: the strings of the block (none when the block
is null, which is the empty list here). -/
def GetMaterialNames (materialNames : List String) : List String := materialNames

/-- A C string copied (`strcpy`, `sprintf`) into a `char[width]` field: the
string with its terminating zero has to fit. A longer string overruns the
field in the source; such a run is not modelled and is `none`. -/
def copyInto (width : Nat) (src : String) : Option String :=
  if src.length < width then some src else none

/-- Body of the material loop (step 5) for material `i`; `name` is `char[32]`,
`texture` is `char[128]`. -/
def convertMaterial (names : List String) (i : Nat) (mat : ms3d_material_t) :
    Option ms3d_material_t :=
  match names.get? i with
  | none => none
  | some name =>
    match copyInto 32 name, copyInto 128 (name ++ ".bmp") with
    | some matName, some matTexture =>
      some { mat with
             ambient := ![1, 1, 1, 1],
             diffuse := ![1, 1, 1, 1],
             specular := ![0, 0, 0, 1],
             emissive := ![0, 0, 0, 1],
             shininess := 0,
             transparency := 1,
             mode := 2,
             name := matName,
             texture := matTexture,
             alphamap := "" }
    | _, _ => none

/-- Function `geStrBlock_GetString(SB, Index)`; `none` when an assertion on the
index fails. -/
def geStrBlock_GetString (SB : List String) (Index : Int) : Option String := readAt SB Index

/-- Body of the joint loop (step 7) for bone `i`; `name` and `parentName` are
`char[32]`. -/
def convertJoint (rt : Runtime) (body : geBody) (i : Nat) (_j : ms3d_joint_t) :
    Option ms3d_joint_t :=
  match body.BoneArray.get? i with
  | none => none
  | some bone =>
    match (geStrBlock_GetString body.BoneNames i).bind (copyInto 32),
          (if bone.ParentBoneIndex = -1 then some ""
           else (geStrBlock_GetString body.BoneNames bone.ParentBoneIndex).bind
             (copyInto 32)) with
    | some name, some parentName =>
      let quaternion := rt.geQuaternion_FromMatrix bone.AttachmentMatrix
      let angles := QuaternionToEuler rt quaternion
      some { flags := 0,
             name := name,
             parentName := parentName,
             position := ![bone.AttachmentMatrix.Translation.X,
                           bone.AttachmentMatrix.Translation.Y,
                           bone.AttachmentMatrix.Translation.Z],
             rotation := ![angles.X, angles.Y, angles.Z],
             numKeyFramesRot := 0,
             numKeyFramesTrans := 0 }
    | _, _ => none

/-- Character codes of `"MS3D000000"`, the ten characters that `strcpy` leaves
in `header.id` (its terminating zero lands on the first byte of `version`,
which the next assignment overwrites). -/
def headerId : List Nat := [77, 83, 51, 68, 48, 48, 48, 48, 48, 48]

/-- Function `ConvertGeBodyToMS3D(body, model)`: the model after the call, or
`none` when a step fails. -/
def ConvertGeBodyToMS3D (rt : Runtime) (fuel : Nat) (body : geBody) (model : ms3d_model_t) :
    Option ms3d_model_t :=
  let header : ms3d_header_t := { id := headerId, version := 4 }
  match updateFrom (convertVertex rt fuel body) 0 body.XSkinVertexCount model.vertices with
  | none => none
  | some vertices =>
    match updateFrom (convertTriangle body) 0 body.FaceCount model.triangles with
    | none => none
    | some triangles =>
      let groups := fillGroups body.FaceArray
      match updateFrom (convertMaterial (GetMaterialNames body.MaterialNames)) 0
              body.MaterialCount model.materials with
      | none => none
      | some materials =>
        let animControls : ms3d_anim_controls_t :=
          { animationFPS := 0, currentTime := 0, totalFrames := 0 }
        match updateFrom (convertJoint rt body) 0 body.BoneCount model.joints with
        | none => none
        | some joints =>
          some { header := header, vertices := vertices, triangles := triangles,
                 groups := groups, materials := materials, animControls := animControls,
                 joints := joints }

/-! ## Construction of the target model (`ms3d.h`, `main.cpp`) -/

/-- Value-initialised `ms3d_vertex_t`. -/
def ms3d_vertex_t.zero : ms3d_vertex_t :=
  { flags := 0, vertex := fun _ => 0, boneId := 0, referenceCount := 0 }

/-- Value-initialised `ms3d_triangle_t`. -/
def ms3d_triangle_t.zero : ms3d_triangle_t :=
  { flags := 0, vertexIndices := fun _ => 0, vertexNormals := fun _ _ => 0, s := fun _ => 0,
    t := fun _ => 0, smoothingGroup := 0, groupIndex := 0 }

/-- Value-initialised `ms3d_material_t`. -/
def ms3d_material_t.zero : ms3d_material_t :=
  { name := "", ambient := fun _ => 0, diffuse := fun _ => 0, specular := fun _ => 0,
    emissive := fun _ => 0, shininess := 0, transparency := 0, mode := 0, texture := "",
    alphamap := "" }

/-- Value-initialised `ms3d_joint_t`. -/
def ms3d_joint_t.zero : ms3d_joint_t :=
  { flags := 0, name := "", parentName := "", rotation := fun _ => 0, position := fun _ => 0,
    numKeyFramesRot := 0, numKeyFramesTrans := 0 }

/-- Constructor `ms3d_model_t(vertexCount, triangleCount, materialCount,
jointCount)`: four vectors of the given sizes, no group. The header and the
animation controls are left unset by the constructor; they are zero here. -/
def ms3d_model_t.new (vertexCount triangleCount materialCount jointCount : Nat) : ms3d_model_t :=
  { header := { id := [], version := 0 },
    vertices := List.replicate vertexCount ms3d_vertex_t.zero,
    triangles := List.replicate triangleCount ms3d_triangle_t.zero,
    groups := [],
    materials := List.replicate materialCount ms3d_material_t.zero,
    animControls := { animationFPS := 0, currentTime := 0, totalFrames := 0 },
    joints := List.replicate jointCount ms3d_joint_t.zero }

/-- The model that `main` constructs from the counts of the body. -/
def mainModel (body : geBody) : ms3d_model_t :=
  ms3d_model_t.new body.XSkinVertexCount body.FaceCount body.MaterialCount body.BoneCount

/-- The conversion as `main` runs it: construction, then `ConvertGeBodyToMS3D`. -/
def mainConvert (rt : Runtime) (fuel : Nat) (body : geBody) : Option ms3d_model_t :=
  ConvertGeBodyToMS3D rt fuel body (mainModel body)

/-! ## Binary writer (`WriteMS3DFile`) -/

/-- Object representation of a `float`: four bytes per value, left to the
platform. -/
structure Float32Codec where
  bytes : geFloat → List Nat
  size : ∀ x, (bytes x).length = 4

/-- Bytes of a `uint8_t`. -/
def u8 (n : Nat) : List Nat := [n % 256]

/-- Bytes of a `uint16_t`, little-endian. -/
def u16le (n : Nat) : List Nat := [n % 256, n / 256 % 256]

/-- Bytes of a `uint32_t`, little-endian. -/
def u32le (n : Nat) : List Nat :=
  [n % 256, n / 256 % 256, n / 65536 % 256, n / 16777216 % 256]

/-- Bytes of an `int`, little-endian two's complement. -/
def i32le (x : Int) : List Nat := u32le (x % 4294967296).toNat

/-- Byte of a `char`. -/
def charByte (x : Int) : List Nat := [toUInt8 x]

/-- Bytes of a `char[width]` field given by its character codes: the codes,
then zero bytes up to the width. -/
def charCodes (width : Nat) (codes : List Nat) : List Nat :=
  (codes.map (fun c => c % 256) ++ List.replicate width 0).take width

/-- Bytes of a `char[width]` field that holds a C string. -/
def charField (width : Nat) (str : String) : List Nat :=
  charCodes width (str.toList.map Char.toNat)

/-- Bytes of three floats. -/
def float3 (codec : Float32Codec) (v : Fin 3 → geFloat) : List Nat :=
  codec.bytes (v 0) ++ codec.bytes (v 1) ++ codec.bytes (v 2)

/-- Bytes of four floats. -/
def float4 (codec : Float32Codec) (v : Fin 4 → geFloat) : List Nat :=
  codec.bytes (v 0) ++ codec.bytes (v 1) ++ codec.bytes (v 2) ++ codec.bytes (v 3)

/-- Packed bytes of `ms3d_header_t` (14 bytes). -/
def ms3d_header_t.encode (h : ms3d_header_t) : List Nat :=
  charCodes 10 h.id ++ i32le h.version

/-- Packed bytes of `ms3d_vertex_t` (15 bytes). -/
def ms3d_vertex_t.encode (codec : Float32Codec) (v : ms3d_vertex_t) : List Nat :=
  u8 v.flags ++ float3 codec v.vertex ++ charByte v.boneId ++ u8 v.referenceCount

/-- Packed bytes of `ms3d_triangle_t` (70 bytes). -/
def ms3d_triangle_t.encode (codec : Float32Codec) (t : ms3d_triangle_t) : List Nat :=
  u16le t.flags
    ++ (u16le (t.vertexIndices 0) ++ u16le (t.vertexIndices 1) ++ u16le (t.vertexIndices 2))
    ++ (float3 codec (t.vertexNormals 0) ++ float3 codec (t.vertexNormals 1)
          ++ float3 codec (t.vertexNormals 2))
    ++ float3 codec t.s ++ float3 codec t.t ++ u8 t.smoothingGroup ++ u8 t.groupIndex

/-- Packed bytes of `ms3d_material_t` (361 bytes). -/
def ms3d_material_t.encode (codec : Float32Codec) (m : ms3d_material_t) : List Nat :=
  charField 32 m.name ++ float4 codec m.ambient ++ float4 codec m.diffuse
    ++ float4 codec m.specular ++ float4 codec m.emissive ++ codec.bytes m.shininess
    ++ codec.bytes m.transparency ++ charByte m.mode ++ charField 128 m.texture
    ++ charField 128 m.alphamap

/-- Packed bytes of `ms3d_joint_t` (93 bytes). -/
def ms3d_joint_t.encode (codec : Float32Codec) (j : ms3d_joint_t) : List Nat :=
  u8 j.flags ++ charField 32 j.name ++ charField 32 j.parentName ++ float3 codec j.rotation
    ++ float3 codec j.position ++ u16le j.numKeyFramesRot ++ u16le j.numKeyFramesTrans

/-- Packed bytes of `ms3d_anim_controls_t` (12 bytes). -/
def ms3d_anim_controls_t.encode (codec : Float32Codec) (a : ms3d_anim_controls_t) : List Nat :=
  codec.bytes a.animationFPS ++ codec.bytes a.currentTime ++ u32le a.totalFrames

/-- Function `WriteVectorToFile<T, uint16_t>`: the size cast to `uint16_t`, then
`sizeof(T) * count` bytes from the start of the vector, which are the records
of the first `count` elements. -/
def WriteVectorToFile {α : Type} (encode : α → List Nat) (data : List α) : List Nat :=
  let count := toUInt16 data.length
  u16le count ++ (data.take count).flatMap encode

/-- Bytes written for one group by the loop of step 4 of `WriteMS3DFile`. -/
def writeGroup (group : ms3d_group_t) : List Nat :=
  u8 group.flags ++ charField 32 group.name ++ u16le group.numtriangles
    ++ group.triangleIndices.flatMap u16le ++ charByte group.materialIndex

/-- Function `WriteMS3DFile(filename, model)`: the bytes of the file, or `none`
when the file cannot be opened for writing (`opened = false`). -/
def WriteMS3DFile (codec : Float32Codec) (opened : Bool) (model : ms3d_model_t) :
    Option (List Nat) :=
  if opened then
    some (model.header.encode
      ++ WriteVectorToFile (ms3d_vertex_t.encode codec) model.vertices
      ++ WriteVectorToFile (ms3d_triangle_t.encode codec) model.triangles
      ++ (u16le (toUInt16 model.groups.length) ++ model.groups.flatMap writeGroup)
      ++ WriteVectorToFile (ms3d_material_t.encode codec) model.materials
      ++ model.animControls.encode codec
      ++ WriteVectorToFile (ms3d_joint_t.encode codec) model.joints)
  else none

/-- Face with the given material index and all other indices 0 (for examples). -/
def faceOfMaterial (m : Int) : geBody_Triangle :=
  { VtxIndex := fun _ => 0, NormalIndex := fun _ => 0, MaterialIndex := m }

/-- Number of maximal runs of identical consecutive material indices, as the
specification words it ("maximal runs of identical material index in triangle
order"). -/
def countRuns : List Int → Nat
  | [] => 0
  | [_] => 1
  | a :: b :: rest => (if a = b then 0 else 1) + countRuns (b :: rest)

/-- Concatenation of the triangle-index lists of a group list, in list order. -/
def allTriangleIndices (groups : List ms3d_group_t) : List Nat :=
  groups.flatMap (fun g => g.triangleIndices)

/-- The material index fits the `char` field of a group. -/
def InCharRange (m : Int) : Prop := -128 ≤ m ∧ m ≤ 127

instance (m : Int) : Decidable (InCharRange m) := by
  unfold InCharRange; infer_instance

/-- Three faces with material indices 2, 5, 2 (the example of the
specification). -/
def exampleFaces : List geBody_Triangle := [2, 5, 2].map faceOfMaterial

/-! ## Bone chains and translations (vocabulary of the statements) -/

/-- The parent chain of a bone, listed from the root down to the bone: every
index on the way is a valid index of `BoneArray` and the walk along
`ParentBoneIndex` ends at a bone whose parent index is `-1`. A bone has such a
chain exactly when its index is valid and its parent chain is acyclic. -/
inductive BoneChain (body : geBody) : Int → List geBody_Bone → Prop
  | root (b : Int) (bone : geBody_Bone) :
      readAt body.BoneArray b = some bone → bone.ParentBoneIndex = -1 →
      BoneChain body b [bone]
  | child (b : Int) (bone : geBody_Bone) (chain : List geBody_Bone) :
      readAt body.BoneArray b = some bone → bone.ParentBoneIndex ≠ -1 →
      BoneChain body bone.ParentBoneIndex chain →
      BoneChain body b (chain ++ [bone])

/-- Ordered product of a list of transforms, the first one as the leftmost
operand: `M0 * M1 * ... * Mn`. -/
def chainProduct : List geXForm3d → geXForm3d
  | [] => default
  | M :: rest => rest.foldl geXForm3d_Multiply M

/-- Sum of two vectors. -/
def geVec3d.add (a b : geVec3d) : geVec3d := { X := a.X + b.X, Y := a.Y + b.Y, Z := a.Z + b.Z }

/-- The zero vector. -/
def geVec3d.zero : geVec3d := { X := 0, Y := 0, Z := 0 }

/-- The transform with identity rotation block and the given translation. -/
def translationBy (t : geVec3d) : geXForm3d :=
  { AX := 1, AY := 0, AZ := 0, BX := 0, BY := 1, BZ := 0, CX := 0, CY := 0, CZ := 1,
    Translation := t }

/-- The transform is a pure translation (identity rotation block). -/
def IsPureTranslation (M : geXForm3d) : Prop := M = translationBy M.Translation

instance (M : geXForm3d) : Decidable (IsPureTranslation M) := by
  unfold IsPureTranslation; infer_instance

/-- Sum of the translations of the attachment transforms of a list of bones. -/
def sumTranslations (chain : List geBody_Bone) : geVec3d :=
  chain.foldl (fun acc bone => acc.add bone.AttachmentMatrix.Translation) geVec3d.zero

/-- The preconditions of the converter on a body: every skin vertex is owned
by no bone (`-1`) or by a bone with a parent chain; every vertex and normal
index of every face is a valid index; the two string blocks have a name for
every material and every bone; every parent index is `-1` or has a name; and
the names are shorter than 32 characters, so that they fit their fields. -/
def WellFormedBody (body : geBody) : Prop :=
  (∀ sv ∈ body.XSkinVertexArray,
    sv.BoneIndex = -1 ∨ ∃ chain, BoneChain body sv.BoneIndex chain) ∧
  (∀ t ∈ body.FaceArray, ∀ j : Fin 3,
    (0 ≤ t.VtxIndex j ∧ t.VtxIndex j < body.XSkinVertexCount) ∧
    (0 ≤ t.NormalIndex j ∧ t.NormalIndex j < body.SkinNormalArray.length)) ∧
  body.MaterialCount ≤ body.MaterialNames.length ∧
  body.BoneCount ≤ body.BoneNames.length ∧
  (∀ bone ∈ body.BoneArray,
    bone.ParentBoneIndex = -1 ∨
      (0 ≤ bone.ParentBoneIndex ∧ bone.ParentBoneIndex < body.BoneNames.length)) ∧
  (∀ name ∈ body.MaterialNames, name.length < 32) ∧
  (∀ name ∈ body.BoneNames, name.length < 32)

/-! ## A small body for closed examples -/

/-- A runtime for closed examples: first-order stand-ins for `asin` and
`atan2`, and a matrix-to-quaternion function that is right on identity
rotations. -/
def exampleRuntime : Runtime :=
  { atan2 := fun y x => y / x,
    asin := fun x => x,
    geQuaternion_FromMatrix := fun _ => { W := 1, X := 0, Y := 0, Z := 0 },
    indeterminate := default }

/-- A float encoding for closed examples (every value as four zero bytes). -/
def exampleCodec : Float32Codec :=
  { bytes := fun _ => [0, 0, 0, 0], size := fun _ => rfl }

/-- Bone `root` of the example: translation `(1,0,0)`, no parent. -/
def exampleBoneRoot : geBody_Bone :=
  { AttachmentMatrix := translationBy { X := 1, Y := 0, Z := 0 }, ParentBoneIndex := -1 }

/-- Bone `A` of the example: translation `(0,2,0)`, parent `root`. -/
def exampleBoneA : geBody_Bone :=
  { AttachmentMatrix := translationBy { X := 0, Y := 2, Z := 0 }, ParentBoneIndex := 0 }

/-- Bone `B` of the example: translation `(0,0,3)`, parent `A`. -/
def exampleBoneB : geBody_Bone :=
  { AttachmentMatrix := translationBy { X := 0, Y := 0, Z := 3 }, ParentBoneIndex := 1 }

/-- Three bones in a chain `root -> A -> B`. -/
def exampleBones : List geBody_Bone := [exampleBoneRoot, exampleBoneA, exampleBoneB]

/-- A body with the three bones of `exampleBones`, three skin vertices (the
first at the local origin of bone `B`), one normal, two materials and three
faces with material indices 0, 1, 0. -/
def exampleBody : geBody :=
  { XSkinVertexArray :=
      [ { XPoint := { X := 0, Y := 0, Z := 0 }, XU := 1 / 4, XV := 1 / 2, BoneIndex := 2 },
        { XPoint := { X := 1, Y := 1, Z := 1 }, XU := 3 / 4, XV := 1, BoneIndex := 1 },
        { XPoint := { X := 0, Y := 5, Z := 0 }, XU := 0, XV := 0, BoneIndex := 0 } ],
    SkinNormalArray := [ { Normal := { X := 0, Y := 0, Z := 1 } } ],
    BoneArray := exampleBones,
    BoneNames := ["root", "A", "B"],
    MaterialCount := 2,
    MaterialNames := ["skin", "cloth"],
    FaceArray :=
      [ { VtxIndex := ![0, 1, 2], NormalIndex := ![0, 0, 0], MaterialIndex := 0 },
        { VtxIndex := ![2, 1, 0], NormalIndex := ![0, 0, 0], MaterialIndex := 1 },
        { VtxIndex := ![1, 2, 0], NormalIndex := ![0, 0, 0], MaterialIndex := 0 } ] }

/-- The model that the conversion of `exampleBody` produces. -/
def exampleResult : ms3d_model_t :=
  (mainConvert exampleRuntime 3 exampleBody).getD (mainModel exampleBody)

/-- A body with 201 root bones and one skin vertex, owned by bone 200. -/
def manyBonesBody : geBody :=
  { XSkinVertexArray :=
      [ { XPoint := { X := 0, Y := 0, Z := 0 }, XU := 0, XV := 0, BoneIndex := 200 } ],
    SkinNormalArray := [],
    BoneArray := List.replicate 201 exampleBoneRoot,
    BoneNames := List.replicate 201 "bone",
    MaterialCount := 0,
    MaterialNames := [],
    FaceArray := [] }

/-- The model that the conversion of `manyBonesBody` produces. -/
def manyBonesResult : ms3d_model_t :=
  (mainConvert exampleRuntime 1 manyBonesBody).getD (mainModel manyBonesBody)

/-- Sum of the lengths of the triangle-index lists of a group list. -/
def totalTriangleIndices (groups : List ms3d_group_t) : Nat :=
  (groups.map (fun g => g.triangleIndices.length)).sum

/-- Name of the group at 0-based position `k` of the group list as the
specification words it: `"Group N"` with `N` the 1-based position, in decimal. -/
def groupName (k : Nat) : String := "Group " ++ toString (k + 1)

/-- Value of a string of decimal digits, continuing from `acc`. -/
def decimalValue (acc : Nat) (digits : List Char) : Nat :=
  digits.foldl (fun a c => a * 10 + (c.toNat - 48)) acc

/-- The function `clamp(x, lo, hi)` of the specification. -/
def clamp (x lo hi : geFloat) : geFloat := max lo (min x hi)

/-- The reference formulas of the specification for the Euler angles of a
quaternion: `roll = atan2(2(wx+yz), 1-2(x^2+y^2))`,
`pitch = asin(clamp(2(wy-zx), -1, 1))`, `yaw = atan2(2(wz+xy), 1-2(y^2+z^2))`. -/
def referenceEuler (rt : Runtime) (q : geQuaternion) : geVec3d :=
  { X := rt.atan2 (2 * (q.W * q.X + q.Y * q.Z)) (1 - 2 * (q.X ^ 2 + q.Y ^ 2)),
    Y := rt.asin (clamp (2 * (q.W * q.Y - q.Z * q.X)) (-1) 1),
    Z := rt.atan2 (2 * (q.W * q.Z + q.X * q.Y)) (1 - 2 * (q.Y ^ 2 + q.Z ^ 2)) }

/-- A runtime for closed examples whose `asin` is linear between
`asin(-1) = -M_PI/2`, `asin(0) = 0` and `asin(1) = M_PI/2`. -/
def linearRuntime : Runtime :=
  { atan2 := fun y x => y / x,
    asin := fun x => x * (M_PI / 2),
    geQuaternion_FromMatrix := fun _ => { W := 1, X := 0, Y := 0, Z := 0 },
    indeterminate := default }

/-- The resolver `GetGlobalTransformationMatrix` with a counter: next to the
output transform it returns the number of recursive calls that the run made. -/
def GetGlobalTransformationMatrixCounted (parentGlobal : geXForm3d) (body : geBody) :
    Nat → Int → geXForm3d → Option (geXForm3d × Nat)
  | 0, _, _ => none
  | fuel + 1, boneIndex, globalMatrix =>
    if boneIndex = -1 then some (globalMatrix, 0)
    else
      match readAt body.BoneArray boneIndex with
      | none => none
      | some bone =>
        let localMatrix := bone.AttachmentMatrix
        let parentBoneIndex := bone.ParentBoneIndex
        if parentBoneIndex ≠ -1 then
          match GetGlobalTransformationMatrixCounted parentGlobal body fuel parentBoneIndex
              parentGlobal with
          | none => none
          | some (parentGlobal1, calls) =>
            some (geXForm3d_Multiply parentGlobal1 localMatrix, calls + 1)
        else some (localMatrix, 0)

/-- Number of ancestors of a bone whose parent chain, from the root down to the
bone itself, is `chain`. -/
def ancestorCount (chain : List geBody_Bone) : Nat := chain.length - 1

/-- The value of the two little-endian bytes of a count prefix. -/
def decodeU16 (bytes : List Nat) : Nat :=
  match bytes with
  | b0 :: b1 :: _ => b0 + 256 * b1
  | _ => 0

/-! # Theorems -/

/-! ## Machine integers -/

theorem toUInt16_of_lt (n : Nat) (h : n < 65536) : toUInt16 (n : Int) = n := by
  unfold toUInt16
  omega

theorem toChar_of_inRange (m : Int) (h : InCharRange m) : toChar m = m := by
  unfold InCharRange at h
  unfold toChar
  omega

theorem incUInt16_of_lt (n : Nat) (h : n + 1 < 65536) : incUInt16 n = n + 1 := by
  unfold incUInt16
  omega

/-! ## Group filling -/

theorem groupStep_same (st : GroupState) (t : geBody_Triangle)
    (h : t.MaterialIndex = st.currentGroup.materialIndex) :
    groupStep st t =
      { groupList := st.groupList,
        currentGroup :=
          { st.currentGroup with
            triangleIndices := st.currentGroup.triangleIndices ++ [toUInt16 st.numGlobalTriangles],
            numtriangles := incUInt16 st.currentGroup.numtriangles },
        numGlobalTriangles := st.numGlobalTriangles + 1 } := by
  simp [groupStep, h]

theorem groupStep_new (st : GroupState) (t : geBody_Triangle)
    (h : t.MaterialIndex ≠ st.currentGroup.materialIndex) :
    groupStep st t =
      { groupList := st.groupList ++ [st.currentGroup],
        currentGroup :=
          { flags := 0,
            name := "Group " ++ toString (st.groupList.length + 1 + 1),
            numtriangles := incUInt16 0,
            triangleIndices := [toUInt16 st.numGlobalTriangles],
            materialIndex := toChar t.MaterialIndex },
        numGlobalTriangles := st.numGlobalTriangles + 1 } := by
  simp [groupStep, h, openGroup, ms3d_group_t.empty]

theorem groupStep_numGlobalTriangles (st : GroupState) (t : geBody_Triangle) :
    (groupStep st t).numGlobalTriangles = st.numGlobalTriangles + 1 := by
  by_cases h : t.MaterialIndex = st.currentGroup.materialIndex
  · rw [groupStep_same st t h]
  · rw [groupStep_new st t h]

/-- Coverage of the loop from any state in which the counter of the current
group has not wrapped. -/
theorem allTriangleIndices_foldl (faces : List geBody_Triangle) :
    ∀ st : GroupState,
      st.currentGroup.numtriangles = st.currentGroup.triangleIndices.length →
      st.currentGroup.triangleIndices.length ≤ st.numGlobalTriangles →
      st.numGlobalTriangles + faces.length < 65536 →
      allTriangleIndices (groupFinish (faces.foldl groupStep st))
        = allTriangleIndices st.groupList ++ st.currentGroup.triangleIndices
            ++ List.range' st.numGlobalTriangles faces.length := by
  induction faces with
  | nil =>
    intro st hnum _ _
    unfold groupFinish
    by_cases hpos : st.currentGroup.numtriangles > 0
    · simp [hpos, allTriangleIndices]
    · have hnil : st.currentGroup.triangleIndices = [] := by
        apply List.eq_nil_of_length_eq_zero
        omega
      simp [hpos, hnil]
  | cons t ts ih =>
    intro st hnum hle hbound
    simp only [List.length_cons] at hbound
    have hidx : toUInt16 (st.numGlobalTriangles : Int) = st.numGlobalTriangles :=
      toUInt16_of_lt _ (by omega)
    rw [List.foldl_cons]
    by_cases h : t.MaterialIndex = st.currentGroup.materialIndex
    · rw [groupStep_same st t h, ih]
      · simp [hidx, List.range'_succ]
      · simp only [List.length_append, List.length_singleton]
        rw [incUInt16_of_lt _ (by omega), hnum]
      · simp only [List.length_append, List.length_singleton]
        omega
      · simp only
        omega
    · rw [groupStep_new st t h, ih]
      · simp [hidx, List.range'_succ, allTriangleIndices]
      · simp [incUInt16]
      · simp
      · simp only
        omega

/-- The loop over `k` faces of the material of the current group: no group is
closed and the 16-bit counter advances modulo 65536. -/
theorem foldl_replicate_same (t : geBody_Triangle) (k : Nat) :
    ∀ st : GroupState, t.MaterialIndex = st.currentGroup.materialIndex →
      st.currentGroup.numtriangles < 65536 →
      ((List.replicate k t).foldl groupStep st).groupList = st.groupList ∧
      ((List.replicate k t).foldl groupStep st).currentGroup.numtriangles
        = (st.currentGroup.numtriangles + k) % 65536 := by
  induction k with
  | zero =>
    intro st _ hlt
    simp only [List.replicate_zero, List.foldl_nil, Nat.add_zero, true_and]
    omega
  | succ k ih =>
    intro st h hlt
    rw [List.replicate_succ, List.foldl_cons, groupStep_same st t h]
    obtain ⟨h1, h2⟩ := ih
      { groupList := st.groupList,
        currentGroup :=
          { st.currentGroup with
            triangleIndices := st.currentGroup.triangleIndices ++ [toUInt16 st.numGlobalTriangles],
            numtriangles := incUInt16 st.currentGroup.numtriangles },
        numGlobalTriangles := st.numGlobalTriangles + 1 } h
      (by simp only [incUInt16]; omega)
    refine ⟨h1, ?_⟩
    rw [h2]
    simp only [incUInt16]
    omega

/-- With 65536 faces of one material the counter of the only group wraps to 0
and the group is not pushed. -/
theorem fillGroups_replicate_65536 :
    fillGroups (List.replicate 65536 (faceOfMaterial 0)) = [] := by
  have h0 : (groupInit (List.replicate 65536 (faceOfMaterial 0))).currentGroup.materialIndex = 0 := by
    show toChar (firstMaterialIndex (List.replicate (65535 + 1) (faceOfMaterial 0))) = 0
    rw [List.replicate_succ]
    rfl
  have hn : (groupInit (List.replicate 65536 (faceOfMaterial 0))).currentGroup.numtriangles = 0 := rfl
  have hg : (groupInit (List.replicate 65536 (faceOfMaterial 0))).groupList = [] := rfl
  obtain ⟨h1, h2⟩ := foldl_replicate_same (faceOfMaterial 0) 65536
    (groupInit (List.replicate 65536 (faceOfMaterial 0))) (by rw [h0]; rfl) (by rw [hn]; omega)
  rw [hn] at h2
  unfold fillGroups groupFinish
  rw [if_neg (by omega), h1, hg]

/-- Coverage for fewer than 65536 faces, where no 16-bit value wraps. -/
theorem allTriangleIndices_fillGroups (faces : List geBody_Triangle) (h : faces.length < 65536) :
    allTriangleIndices (fillGroups faces) = List.range faces.length := by
  unfold fillGroups
  rw [allTriangleIndices_foldl faces (groupInit faces) rfl (Nat.zero_le _)
    (by simpa [groupInit] using h)]
  simp [groupInit, allTriangleIndices, openGroup, ms3d_group_t.empty, List.range_eq_range']

/-- Claim C1: for every face sequence (its length `FaceCount` is a
`geBody_Index`), the triangle-index lists of the groups produced from it,
concatenated in group order, are exactly `0, 1, ..., FaceCount - 1`. No
condition is put on the material indices. -/
theorem group_partition_coverage (faces : List geBody_Triangle)
    (h : faces.length ≤ geBody_Index_MAX) :
    allTriangleIndices (fillGroups faces) = List.range faces.length :=
  allTriangleIndices_fillGroups faces (by unfold geBody_Index_MAX at h; omega)

/-- Claim C1 at the faces with material indices 2, 5, 2, and at a single face of
material index 200, where the concatenation is `[0]`. -/
theorem group_partition_coverage_witness :
    (exampleFaces.length ≤ geBody_Index_MAX ∧
      allTriangleIndices (fillGroups exampleFaces) = List.range exampleFaces.length) ∧
    ([faceOfMaterial 200].length ≤ geBody_Index_MAX ∧
      allTriangleIndices (fillGroups [faceOfMaterial 200]) = [0]) :=
  ⟨⟨by decide, group_partition_coverage exampleFaces (by decide)⟩,
   ⟨by decide, group_partition_coverage [faceOfMaterial 200] (by decide)⟩⟩

theorem mem_of_mem_groupFinish (st : GroupState) (g : ms3d_group_t)
    (h : g ∈ groupFinish st) : g ∈ st.groupList ++ [st.currentGroup] := by
  unfold groupFinish at h
  split at h
  · exact h
  · exact List.mem_append_left _ h

/-- Every index held by a group of the loop state refers to a face of the
material of the group; preserved by the loop when material indices fit `char`
and triangle indices fit 16 bits. -/
theorem sameMaterial_foldl (all : List geBody_Triangle) (ts : List geBody_Triangle) :
    ∀ st : GroupState,
      all.drop st.numGlobalTriangles = ts →
      st.numGlobalTriangles + ts.length < 65536 →
      (∀ t ∈ ts, InCharRange t.MaterialIndex) →
      (∀ g ∈ st.groupList ++ [st.currentGroup], ∀ i ∈ g.triangleIndices,
        (all.get? i).map (fun t => t.MaterialIndex) = some g.materialIndex) →
      ∀ g ∈ (ts.foldl groupStep st).groupList ++ [(ts.foldl groupStep st).currentGroup],
        ∀ i ∈ g.triangleIndices,
          (all.get? i).map (fun t => t.MaterialIndex) = some g.materialIndex := by
  induction ts with
  | nil =>
    intro st _ _ _ hinv
    exact hinv
  | cons t ts ih =>
    intro st hdrop hbound hchar hinv
    simp only [List.length_cons] at hbound
    have hidx : toUInt16 (st.numGlobalTriangles : Int) = st.numGlobalTriangles :=
      toUInt16_of_lt _ (by omega)
    have hget : all.get? st.numGlobalTriangles = some t := by
      have := congrArg List.head? hdrop
      simpa [List.head?_drop] using this
    have hdrop1 : all.drop (st.numGlobalTriangles + 1) = ts := by
      have := congrArg List.tail hdrop
      simpa [List.tail_drop] using this
    have hchar1 : ∀ u ∈ ts, InCharRange u.MaterialIndex :=
      fun u hu => hchar u (List.mem_cons_of_mem _ hu)
    rw [List.foldl_cons]
    apply ih
    · rw [groupStep_numGlobalTriangles]
      exact hdrop1
    · rw [groupStep_numGlobalTriangles]
      omega
    · exact hchar1
    · by_cases h : t.MaterialIndex = st.currentGroup.materialIndex
      · rw [groupStep_same st t h]
        intro g hg i hi
        simp only [List.mem_append, List.mem_singleton] at hg
        rcases hg with hg | hg
        · exact hinv g (List.mem_append_left _ hg) i hi
        · subst hg
          simp only [List.mem_append, List.mem_singleton] at hi
          rcases hi with hi | hi
          · exact hinv st.currentGroup (by simp) i hi
          · rw [hi, hidx, hget]
            simp [h]
      · rw [groupStep_new st t h]
        intro g hg i hi
        simp only [List.mem_append, List.mem_singleton] at hg
        rcases hg with hg | hg
        · exact hinv g (by simpa using hg) i hi
        · subst hg
          simp only [List.mem_singleton] at hi
          rw [hi, hidx, hget]
          simp [toChar_of_inRange _ (hchar t (List.mem_cons_self _ _))]

/-- Neighbouring groups of the loop state have different material indices;
preserved by the loop when material indices fit `char`. -/
theorem chain_foldl (ts : List geBody_Triangle) :
    ∀ st : GroupState,
      (∀ t ∈ ts, InCharRange t.MaterialIndex) →
      List.Chain' (fun a b : Int => a ≠ b)
        ((st.groupList ++ [st.currentGroup]).map (fun g => g.materialIndex)) →
      List.Chain' (fun a b : Int => a ≠ b)
        (((ts.foldl groupStep st).groupList ++ [(ts.foldl groupStep st).currentGroup]).map
          (fun g => g.materialIndex)) := by
  induction ts with
  | nil =>
    intro st _ hinv
    exact hinv
  | cons t ts ih =>
    intro st hchar hinv
    rw [List.foldl_cons]
    apply ih _ (fun u hu => hchar u (List.mem_cons_of_mem _ hu))
    by_cases h : t.MaterialIndex = st.currentGroup.materialIndex
    · rw [groupStep_same st t h]
      simpa using hinv
    · rw [groupStep_new st t h, toChar_of_inRange _ (hchar t (List.mem_cons_self _ _))]
      rw [List.map_append, List.chain'_append]
      refine ⟨hinv, by simp, ?_⟩
      intro x hx y hy
      simp only [List.map_append, List.map_cons, List.map_nil, List.getLast?_append,
        List.getLast?_singleton, Option.mem_def] at hx
      simp only [List.map_cons, List.map_nil, List.head?_cons, Option.mem_def,
        Option.some.injEq] at hy
      have hx1 : st.currentGroup.materialIndex = x := by
        simpa [Option.or] using hx
      subst hx1 hy
      exact fun e => h e.symm

/-- Number of groups at the end of the loop, from a state whose current group is
not empty or with a face still to come. -/
theorem length_groupFinish_foldl (ts : List geBody_Triangle) :
    ∀ st : GroupState,
      st.currentGroup.numtriangles = st.currentGroup.triangleIndices.length →
      st.currentGroup.triangleIndices.length ≤ st.numGlobalTriangles →
      st.numGlobalTriangles + ts.length < 65536 →
      (∀ t ∈ ts, InCharRange t.MaterialIndex) →
      (st.currentGroup.triangleIndices ≠ [] ∨ ts ≠ []) →
      (groupFinish (ts.foldl groupStep st)).length
        = st.groupList.length
            + countRuns (st.currentGroup.materialIndex :: ts.map (fun t => t.MaterialIndex)) := by
  induction ts with
  | nil =>
    intro st hnum _ _ _ hne
    have hpos : st.currentGroup.numtriangles > 0 := by
      rcases hne with hne | hne
      · rw [hnum]
        exact List.length_pos.mpr hne
      · exact absurd rfl hne
    simp [groupFinish, hpos, countRuns]
  | cons t ts ih =>
    intro st hnum hle hbound hchar _
    simp only [List.length_cons] at hbound
    rw [List.foldl_cons]
    by_cases h : t.MaterialIndex = st.currentGroup.materialIndex
    · rw [groupStep_same st t h, ih]
      · simp [countRuns, h]
      · simp only [List.length_append, List.length_singleton]
        rw [incUInt16_of_lt _ (by omega), hnum]
      · simp only [List.length_append, List.length_singleton]
        omega
      · simp only
        omega
      · exact fun u hu => hchar u (List.mem_cons_of_mem _ hu)
      · left
        simp
    · rw [groupStep_new st t h, ih]
      · have hne : ¬ st.currentGroup.materialIndex = t.MaterialIndex := fun e => h e.symm
        simp [countRuns, hne, toChar_of_inRange _ (hchar t (List.mem_cons_self _ _))]
        omega
      · simp [incUInt16]
      · simp
      · simp only
        omega
      · exact fun u hu => hchar u (List.mem_cons_of_mem _ hu)
      · left
        simp

theorem countRuns_replicate (a : Int) (k : Nat) : countRuns (List.replicate (k + 1) a) = 1 := by
  induction k with
  | zero => rfl
  | succ k ih =>
    rw [List.replicate_succ, List.replicate_succ] at *
    simp only [countRuns, if_true, Nat.zero_add] at *
    exact ih

/-- Claim C2, for fewer than 65536 faces whose material indices all lie in
`-128..127`: every triangle index held by a group refers to a face whose
material index is the group's `materialIndex`; neighbouring groups have
different material indices; and the number of groups is the number of maximal
runs of identical material index in face order. -/
theorem group_run_property (faces : List geBody_Triangle) (hlen : faces.length < 65536)
    (hchar : ∀ t ∈ faces, InCharRange t.MaterialIndex) :
    (∀ g ∈ fillGroups faces, ∀ i ∈ g.triangleIndices,
      (faces.get? i).map (fun t => t.MaterialIndex) = some g.materialIndex) ∧
    List.Chain' (fun g h : ms3d_group_t => g.materialIndex ≠ h.materialIndex) (fillGroups faces) ∧
    (fillGroups faces).length = countRuns (faces.map (fun t => t.MaterialIndex)) := by
  have hbound : (groupInit faces).numGlobalTriangles + faces.length < 65536 := by
    simpa [groupInit] using hlen
  refine ⟨?_, ?_, ?_⟩
  · intro g hg
    apply sameMaterial_foldl faces faces (groupInit faces) rfl hbound hchar
    · intro g1 hg1 i hi
      have : g1 = (groupInit faces).currentGroup := by simpa [groupInit] using hg1
      subst this
      simp [groupInit, openGroup, ms3d_group_t.empty] at hi
    · exact mem_of_mem_groupFinish _ g hg
  · have hc := chain_foldl faces (groupInit faces) hchar (by simp [groupInit])
    rw [← List.chain'_map (fun g : ms3d_group_t => g.materialIndex)]
    unfold fillGroups groupFinish
    split
    · exact hc
    · rw [List.map_append, List.chain'_append] at hc
      exact hc.1
  · cases faces with
    | nil => rfl
    | cons t ts =>
      unfold fillGroups
      rw [length_groupFinish_foldl (t :: ts) (groupInit (t :: ts)) rfl (Nat.zero_le _) hbound hchar
        (Or.inr (List.cons_ne_nil _ _))]
      have h0 : (groupInit (t :: ts)).currentGroup.materialIndex = t.MaterialIndex :=
        toChar_of_inRange _ (hchar t (List.mem_cons_self _ _))
      rw [h0]
      simp [groupInit, countRuns]

/-- Claim C2 at the faces with material indices 2, 5, 2: three groups. -/
theorem group_run_property_witness :
    exampleFaces.length < 65536 ∧
    (∀ t ∈ exampleFaces, InCharRange t.MaterialIndex) ∧
    ((∀ g ∈ fillGroups exampleFaces, ∀ i ∈ g.triangleIndices,
      (exampleFaces.get? i).map (fun t => t.MaterialIndex) = some g.materialIndex) ∧
    List.Chain' (fun g h : ms3d_group_t => g.materialIndex ≠ h.materialIndex)
      (fillGroups exampleFaces) ∧
    (fillGroups exampleFaces).length = countRuns (exampleFaces.map (fun t => t.MaterialIndex))) :=
  ⟨by decide, by decide, group_run_property exampleFaces (by decide) (by decide)⟩

/-- Claim C2 fails at a single face of material index 200, which is stored as
`-56`: two groups are produced for the one run, both with material index `-56`,
and the triangle of the second group has material index 200. It also fails at
65536 faces of material 0: one run, no group. -/
theorem group_run_property_fails :
    (¬ (∀ g ∈ fillGroups [faceOfMaterial 200], ∀ i ∈ g.triangleIndices,
        ([faceOfMaterial 200].get? i).map (fun t => t.MaterialIndex) = some g.materialIndex)) ∧
    (¬ List.Chain' (fun g h : ms3d_group_t => g.materialIndex ≠ h.materialIndex)
        (fillGroups [faceOfMaterial 200])) ∧
    (fillGroups [faceOfMaterial 200]).length
      ≠ countRuns ([faceOfMaterial 200].map (fun t => t.MaterialIndex)) ∧
    (fillGroups (List.replicate 65536 (faceOfMaterial 0))).length
      ≠ countRuns ((List.replicate 65536 (faceOfMaterial 0)).map (fun t => t.MaterialIndex)) := by
  refine ⟨by decide, ?_, by decide, ?_⟩
  · have hm : (fillGroups [faceOfMaterial 200]).map (fun g => g.materialIndex) = [-56, -56] := by
      decide
    rw [← List.chain'_map (fun g : ms3d_group_t => g.materialIndex), hm]
    simp
  rw [fillGroups_replicate_65536, List.map_replicate]
  show ([] : List ms3d_group_t).length ≠ countRuns (List.replicate (65535 + 1) _)
  rw [countRuns_replicate]
  decide

/-! ## Counted loops and the structure of the converter -/

theorem updateFrom_length {β : Type} (f : Nat → β → Option β) (count : Nat) :
    ∀ (start : Nat) (l out : List β), updateFrom f start count l = some out →
      out.length = l.length := by
  induction count with
  | zero =>
    intro start l out h
    simp only [updateFrom, Option.some.injEq] at h
    rw [h]
  | succ n ih =>
    intro start l out h
    cases l with
    | nil => simp [updateFrom] at h
    | cons b bs =>
      simp only [updateFrom] at h
      split at h
      · exact absurd h (by simp)
      · split at h
        · exact absurd h (by simp)
        · rename_i rest hrest
          simp only [Option.some.injEq] at h
          rw [← h, List.length_cons, List.length_cons, ih _ _ _ hrest]

theorem updateFrom_get {β : Type} (f : Nat → β → Option β) (count : Nat) :
    ∀ (start : Nat) (l out : List β), updateFrom f start count l = some out →
      ∀ k, k < count → ∃ b c, l.get? k = some b ∧ f (start + k) b = some c ∧ out.get? k = some c := by
  induction count with
  | zero =>
    intro start l out _ k hk
    exact absurd hk (Nat.not_lt_zero _)
  | succ n ih =>
    intro start l out h k hk
    cases l with
    | nil => simp [updateFrom] at h
    | cons b bs =>
      simp only [updateFrom] at h
      split at h
      · exact absurd h (by simp)
      · rename_i b1 hb1
        split at h
        · exact absurd h (by simp)
        · rename_i rest hrest
          simp only [Option.some.injEq] at h
          subst h
          cases k with
          | zero => exact ⟨b, b1, rfl, by simpa using hb1, rfl⟩
          | succ k =>
            obtain ⟨b2, c, h1, h2, h3⟩ := ih _ _ _ hrest k (by omega)
            refine ⟨b2, c, by simpa using h1, ?_, by simpa using h3⟩
            rw [← h2]
            congr 1
            omega

/-- What a successful run of `ConvertGeBodyToMS3D` leaves in each field of the
model. -/
theorem ConvertGeBodyToMS3D_eq_some (rt : Runtime) (fuel : Nat) (body : geBody)
    (model result : ms3d_model_t) (h : ConvertGeBodyToMS3D rt fuel body model = some result) :
    result.header = { id := headerId, version := 4 } ∧
    updateFrom (convertVertex rt fuel body) 0 body.XSkinVertexCount model.vertices
      = some result.vertices ∧
    updateFrom (convertTriangle body) 0 body.FaceCount model.triangles = some result.triangles ∧
    result.groups = fillGroups body.FaceArray ∧
    updateFrom (convertMaterial (GetMaterialNames body.MaterialNames)) 0 body.MaterialCount
      model.materials = some result.materials ∧
    result.animControls = { animationFPS := 0, currentTime := 0, totalFrames := 0 } ∧
    updateFrom (convertJoint rt body) 0 body.BoneCount model.joints = some result.joints := by
  unfold ConvertGeBodyToMS3D at h
  split at h
  · exact absurd h (by simp)
  · rename_i vertices hv
    split at h
    · exact absurd h (by simp)
    · rename_i triangles ht
      split at h
      · exact absurd h (by simp)
      · rename_i materials hm
        split at h
        · exact absurd h (by simp)
        · rename_i joints hj
          simp only [Option.some.injEq] at h
          subst h
          exact ⟨rfl, hv, ht, rfl, hm, rfl, hj⟩

theorem updateFrom_count_le {β : Type} (f : Nat → β → Option β) (count : Nat) :
    ∀ (start : Nat) (l out : List β), updateFrom f start count l = some out →
      count ≤ l.length := by
  intro start l out h
  by_contra hlt
  cases count with
  | zero => exact hlt (Nat.zero_le _)
  | succ n =>
    obtain ⟨b, _, hb, _, _⟩ := updateFrom_get f (n + 1) start l out h l.length (by omega)
    have := List.get?_eq_none.mpr (Nat.le_refl l.length)
    rw [this] at hb
    exact absurd hb (by simp)

/-- The conversion of the example body succeeds. -/
theorem exampleResult_eq : mainConvert exampleRuntime 3 exampleBody = some exampleResult := by
  rfl

/-- Claim C3: a run of `ConvertGeBodyToMS3D` leaves the lengths of the vertex,
triangle, material and joint arrays of the model as they were; on the model
that `main` constructs from the counts of the body they are the skin-vertex
count, the face count, the material count and the bone count. -/
theorem count_preservation (rt : Runtime) (fuel : Nat) (body : geBody)
    (model result : ms3d_model_t) (h : ConvertGeBodyToMS3D rt fuel body model = some result) :
    (result.vertices.length = model.vertices.length ∧
      result.triangles.length = model.triangles.length ∧
      result.materials.length = model.materials.length ∧
      result.joints.length = model.joints.length) ∧
    (model = mainModel body →
      result.vertices.length = body.XSkinVertexCount ∧
      result.triangles.length = body.FaceCount ∧
      result.materials.length = body.MaterialCount ∧
      result.joints.length = body.BoneCount) := by
  obtain ⟨_, hv, ht, _, hm, _, hj⟩ := ConvertGeBodyToMS3D_eq_some rt fuel body model result h
  have h1 := updateFrom_length _ _ _ _ _ hv
  have h2 := updateFrom_length _ _ _ _ _ ht
  have h3 := updateFrom_length _ _ _ _ _ hm
  have h4 := updateFrom_length _ _ _ _ _ hj
  refine ⟨⟨h1, h2, h3, h4⟩, ?_⟩
  intro hmodel
  subst hmodel
  rw [h1, h2, h3, h4]
  simp [mainModel, ms3d_model_t.new]

/-- Claim C3 on the example body: 3 vertices, 3 triangles, 2 materials, 3 joints. -/
theorem count_preservation_witness :
    ConvertGeBodyToMS3D exampleRuntime 3 exampleBody (mainModel exampleBody) = some exampleResult ∧
    exampleResult.vertices.length = 3 ∧ exampleResult.triangles.length = 3 ∧
    exampleResult.materials.length = 2 ∧ exampleResult.joints.length = 3 :=
  ⟨exampleResult_eq,
   (count_preservation exampleRuntime 3 exampleBody (mainModel exampleBody) exampleResult
      exampleResult_eq).2 rfl⟩

/-! ## Header bytes -/

/-- Claim C4: for a model converted by `ConvertGeBodyToMS3D` and written by
`WriteMS3DFile` to a file that opens, the first 10 bytes are the ASCII
characters of `"MS3D000000"` and the next 4 bytes are `04 00 00 00`. -/
theorem byte_exact_header (codec : Float32Codec) (rt : Runtime) (fuel : Nat) (body : geBody)
    (model result : ms3d_model_t) (h : ConvertGeBodyToMS3D rt fuel body model = some result) :
    ∃ bytes, WriteMS3DFile codec true result = some bytes ∧
      bytes.take 10 = "MS3D000000".toList.map Char.toNat ∧
      (bytes.drop 10).take 4 = [4, 0, 0, 0] := by
  obtain ⟨hh, _⟩ := ConvertGeBodyToMS3D_eq_some rt fuel body model result h
  have henc : result.header.encode = [77, 83, 51, 68, 48, 48, 48, 48, 48, 48, 4, 0, 0, 0] := by
    rw [hh]
    decide
  refine ⟨_, if_pos rfl, ?_, ?_⟩
  · rw [henc]
    simp only [List.append_assoc, List.cons_append, List.take_succ_cons, List.take_zero]
    decide
  · rw [henc]
    simp only [List.append_assoc, List.cons_append, List.drop_succ_cons, List.drop_zero,
      List.take_succ_cons, List.take_zero]

/-- Claim C4 on the example body. -/
theorem byte_exact_header_witness :
    ConvertGeBodyToMS3D exampleRuntime 3 exampleBody (mainModel exampleBody) = some exampleResult ∧
    ∃ bytes, WriteMS3DFile exampleCodec true exampleResult = some bytes ∧
      bytes.take 10 = "MS3D000000".toList.map Char.toNat ∧
      (bytes.drop 10).take 4 = [4, 0, 0, 0] :=
  ⟨exampleResult_eq,
   byte_exact_header exampleCodec exampleRuntime 3 exampleBody (mainModel exampleBody)
     exampleResult exampleResult_eq⟩

/-! ## Transform resolver -/

theorem readAt_ne_neg_one {α : Type} (a : List α) (i : Int) (x : α) (h : readAt a i = some x) :
    i ≠ -1 := by
  intro hi
  subst hi
  simp [readAt] at h

theorem BoneChain_ne_nil (body : geBody) (b : Int) (chain : List geBody_Bone)
    (h : BoneChain body b chain) : chain ≠ [] := by
  cases h with
  | root => simp
  | child => simp

theorem chainProduct_append_singleton (Ms : List geXForm3d) (M : geXForm3d) (h : Ms ≠ []) :
    chainProduct (Ms ++ [M]) = geXForm3d_Multiply (chainProduct Ms) M := by
  cases Ms with
  | nil => exact absurd rfl h
  | cons M0 rest => simp [chainProduct, List.foldl_append]

/-- One unfolding of the resolver at a valid bone index. -/
theorem GetGlobalTransformationMatrix_succ (parentGlobal : geXForm3d) (body : geBody)
    (fuel : Nat) (b : Int) (g : geXForm3d) (bone : geBody_Bone)
    (hb : readAt body.BoneArray b = some bone) :
    GetGlobalTransformationMatrix parentGlobal body (fuel + 1) b g =
      if bone.ParentBoneIndex ≠ -1 then
        (GetGlobalTransformationMatrix parentGlobal body fuel bone.ParentBoneIndex parentGlobal).map
          (fun parentGlobal1 => geXForm3d_Multiply parentGlobal1 bone.AttachmentMatrix)
      else some bone.AttachmentMatrix := by
  have hne := readAt_ne_neg_one _ _ _ hb
  rw [GetGlobalTransformationMatrix]
  simp only [hne, if_false, hb]
  split
  · cases hrec : GetGlobalTransformationMatrix parentGlobal body fuel bone.ParentBoneIndex parentGlobal <;> simp
  · rfl

/-- With fuel for the length of the chain the resolver returns the ordered
product of the attachment transforms of the chain. -/
theorem GetGlobalTransformationMatrix_of_chain (parentGlobal : geXForm3d) (body : geBody)
    (b : Int) (chain : List geBody_Bone) (hc : BoneChain body b chain) :
    ∀ fuel, chain.length ≤ fuel → ∀ g,
      GetGlobalTransformationMatrix parentGlobal body fuel b g
        = some (chainProduct (chain.map (fun bone => bone.AttachmentMatrix))) := by
  induction hc with
  | root b bone hb hp =>
    intro fuel hfuel g
    obtain ⟨f, rfl⟩ : ∃ f, fuel = f + 1 := ⟨fuel - 1, by simp at hfuel; omega⟩
    rw [GetGlobalTransformationMatrix_succ _ _ _ _ _ _ hb]
    simp [hp, chainProduct]
  | child b bone chain hb hp hchain ih =>
    intro fuel hfuel g
    obtain ⟨f, rfl⟩ : ∃ f, fuel = f + 1 := ⟨fuel - 1, by simp at hfuel; omega⟩
    rw [GetGlobalTransformationMatrix_succ _ _ _ _ _ _ hb]
    rw [if_pos hp, ih f (by simp at hfuel; omega) parentGlobal]
    rw [List.map_append, List.map_singleton, chainProduct_append_singleton]
    · rfl
    · simpa using BoneChain_ne_nil _ _ _ hchain

/-- Whatever the fuel, a result of the resolver on a bone with a chain is the
ordered product along the chain. -/
theorem GetGlobalTransformationMatrix_eq_of_chain (parentGlobal : geXForm3d) (body : geBody)
    (b : Int) (chain : List geBody_Bone) (hc : BoneChain body b chain) :
    ∀ fuel g x, GetGlobalTransformationMatrix parentGlobal body fuel b g = some x →
      x = chainProduct (chain.map (fun bone => bone.AttachmentMatrix)) := by
  induction hc with
  | root b bone hb hp =>
    intro fuel g x hx
    cases fuel with
    | zero => simp [GetGlobalTransformationMatrix] at hx
    | succ f =>
      rw [GetGlobalTransformationMatrix_succ _ _ _ _ _ _ hb] at hx
      simp only [hp, ne_eq, not_true_eq_false, if_false, Option.some.injEq] at hx
      rw [← hx]
      rfl
  | child b bone chain hb hp hchain ih =>
    intro fuel g x hx
    cases fuel with
    | zero => simp [GetGlobalTransformationMatrix] at hx
    | succ f =>
      rw [GetGlobalTransformationMatrix_succ _ _ _ _ _ _ hb, if_pos hp] at hx
      cases hrec : GetGlobalTransformationMatrix parentGlobal body f bone.ParentBoneIndex parentGlobal with
      | none => simp [hrec] at hx
      | some y =>
        rw [hrec] at hx
        simp only [Option.map_some', Option.some.injEq] at hx
        rw [List.map_append, List.map_singleton, chainProduct_append_singleton, ← hx,
          ih f parentGlobal y hrec]
        simpa using BoneChain_ne_nil _ _ _ hchain

/-- The chain of bone `B` of the example body. -/
theorem exampleChain : BoneChain exampleBody 2 exampleBones :=
  BoneChain.child 2 exampleBoneB [exampleBoneRoot, exampleBoneA] rfl (by decide)
    (BoneChain.child 1 exampleBoneA [exampleBoneRoot] rfl (by decide)
      (BoneChain.root 0 exampleBoneRoot rfl rfl))

/-- Claim C6: for a bone with a parent chain (valid index, acyclic chain) and
fuel for the length of the chain, `GetGlobalTransformationMatrix` yields the
ordered product of the attachment transforms from the root down to the bone;
it is the bone's own attachment transform when the parent index is `-1`, and
otherwise `geXForm3d_Multiply` of the resolved transform of the parent (left
operand) and the bone's attachment transform (right operand). -/
theorem resolver_recurrence (parentGlobal : geXForm3d) (body : geBody) (b : Int)
    (chain : List geBody_Bone) (hc : BoneChain body b chain) (fuel : Nat)
    (hfuel : chain.length ≤ fuel) (g : geXForm3d) :
    GetGlobalTransformationMatrix parentGlobal body fuel b g
      = some (chainProduct (chain.map (fun bone => bone.AttachmentMatrix))) ∧
    ∃ bone, readAt body.BoneArray b = some bone ∧
      (bone.ParentBoneIndex = -1 →
        GetGlobalTransformationMatrix parentGlobal body fuel b g = some bone.AttachmentMatrix) ∧
      (bone.ParentBoneIndex ≠ -1 →
        ∃ parentResult,
          (∀ fuel1, chain.length - 1 ≤ fuel1 → ∀ g1,
            GetGlobalTransformationMatrix parentGlobal body fuel1 bone.ParentBoneIndex g1
              = some parentResult) ∧
          GetGlobalTransformationMatrix parentGlobal body fuel b g
            = some (geXForm3d_Multiply parentResult bone.AttachmentMatrix)) := by
  have hres := GetGlobalTransformationMatrix_of_chain parentGlobal body b chain hc fuel hfuel g
  refine ⟨hres, ?_⟩
  cases hc with
  | root _ bone hb hp =>
    refine ⟨bone, hb, fun _ => ?_, fun hne => absurd hp hne⟩
    rw [hres]
    rfl
  | child _ bone chain1 hb hp hchain =>
    refine ⟨bone, hb, fun he => absurd he hp, fun _ => ?_⟩
    refine ⟨chainProduct (chain1.map (fun bone => bone.AttachmentMatrix)), ?_, ?_⟩
    · intro fuel1 hfuel1 g1
      exact GetGlobalTransformationMatrix_of_chain parentGlobal body _ chain1 hchain fuel1
        (by simp at hfuel1; omega) g1
    · rw [hres, List.map_append, List.map_singleton, chainProduct_append_singleton]
      simpa using BoneChain_ne_nil _ _ _ hchain

/-- Claim C6 on bone `B` of the example body, whose chain is `root, A, B`. -/
theorem resolver_recurrence_witness :
    BoneChain exampleBody 2 exampleBones ∧ exampleBones.length ≤ 3 ∧
    GetGlobalTransformationMatrix default exampleBody 3 2 default
      = some (chainProduct (exampleBones.map (fun bone => bone.AttachmentMatrix))) :=
  ⟨exampleChain, by decide,
   (resolver_recurrence default exampleBody 2 exampleBones exampleChain 3 (by decide) default).1⟩

/-! ## Translation chains -/

theorem geXForm3d_Multiply_translationBy (a b : geVec3d) :
    geXForm3d_Multiply (translationBy a) (translationBy b) = translationBy (a.add b) := by
  simp [geXForm3d_Multiply, translationBy, geVec3d.add, add_comm]

theorem foldl_Multiply_translationBy (rest : List geBody_Bone) :
    ∀ acc : geVec3d, (∀ bone ∈ rest, IsPureTranslation bone.AttachmentMatrix) →
      (rest.map (fun bone => bone.AttachmentMatrix)).foldl geXForm3d_Multiply (translationBy acc)
        = translationBy
            (rest.foldl (fun acc bone => acc.add bone.AttachmentMatrix.Translation) acc) := by
  induction rest with
  | nil =>
    intro acc _
    rfl
  | cons bone rest ih =>
    intro acc hpure
    have hb : bone.AttachmentMatrix = translationBy bone.AttachmentMatrix.Translation :=
      hpure bone (List.mem_cons_self _ _)
    rw [List.map_cons, List.foldl_cons, List.foldl_cons]
    rw [← ih _ (fun b1 h1 => hpure b1 (List.mem_cons_of_mem _ h1))]
    congr 1
    rw [← geXForm3d_Multiply_translationBy, ← hb]

theorem chainProduct_translations (chain : List geBody_Bone) (hne : chain ≠ [])
    (hpure : ∀ bone ∈ chain, IsPureTranslation bone.AttachmentMatrix) :
    chainProduct (chain.map (fun bone => bone.AttachmentMatrix))
      = translationBy (sumTranslations chain) := by
  cases chain with
  | nil => exact absurd rfl hne
  | cons bone rest =>
    have hb : bone.AttachmentMatrix = translationBy bone.AttachmentMatrix.Translation :=
      hpure bone (List.mem_cons_self _ _)
    have hz : geVec3d.zero.add bone.AttachmentMatrix.Translation
        = bone.AttachmentMatrix.Translation := by
      simp [geVec3d.add, geVec3d.zero]
    simp only [List.map_cons, chainProduct, sumTranslations, List.foldl_cons]
    rw [hz, ← foldl_Multiply_translationBy rest _ (fun b1 h1 => hpure b1 (List.mem_cons_of_mem _ h1)),
      ← hb]

theorem geXForm3d_Transform_translationBy_zero (t : geVec3d) :
    geXForm3d_Transform (translationBy t) geVec3d.zero = t := by
  simp [geXForm3d_Transform, translationBy, geVec3d.zero]

/-- The value that a successful vertex loop stores for skin vertex `i`. -/
theorem ConvertGeBodyToMS3D_vertex (rt : Runtime) (fuel : Nat) (body : geBody)
    (model result : ms3d_model_t) (h : ConvertGeBodyToMS3D rt fuel body model = some result)
    (i : Nat) (sv : geBody_XSkinVertex) (hsv : body.XSkinVertexArray.get? i = some sv) :
    ∃ globalMatrix,
      GetGlobalTransformationMatrix rt.indeterminate body fuel sv.BoneIndex rt.indeterminate
        = some globalMatrix ∧
      ∃ v, result.vertices.get? i = some v ∧
        v.flags = 0 ∧
        v.vertex = ![(geXForm3d_Transform globalMatrix sv.XPoint).X,
                     (geXForm3d_Transform globalMatrix sv.XPoint).Y,
                     (geXForm3d_Transform globalMatrix sv.XPoint).Z] ∧
        v.boneId = toChar sv.BoneIndex ∧
        v.referenceCount = 0 := by
  obtain ⟨_, hv, _⟩ := ConvertGeBodyToMS3D_eq_some rt fuel body model result h
  have hi : i < body.XSkinVertexCount := by
    by_contra hge
    have := List.get?_eq_none.mpr (Nat.le_of_not_lt hge)
    rw [this] at hsv
    exact absurd hsv (by simp)
  obtain ⟨v0, v, _, hconv, hget⟩ := updateFrom_get _ _ _ _ _ hv i hi
  rw [Nat.zero_add] at hconv
  unfold convertVertex at hconv
  rw [hsv] at hconv
  simp only at hconv
  split at hconv
  · exact absurd hconv (by simp)
  · rename_i globalMatrix hg
    simp only [Option.some.injEq] at hconv
    subst hconv
    exact ⟨globalMatrix, hg, _, hget, rfl, rfl, rfl, rfl⟩

/-- Claim C5 (exact arithmetic): along a chain of pure translations the
resolved transform of a bone is the translation by the sum of the translations
of the chain; and for a chain `root -> A -> B` of pure translations `t0`, `t1`,
`t2`, a skin vertex at the local origin owned by `B` gets the position
`t0 + t1 + t2` from `ConvertGeBodyToMS3D`. -/
theorem translation_chain_composition :
    (∀ (parentGlobal : geXForm3d) (body : geBody) (b : Int) (chain : List geBody_Bone),
      BoneChain body b chain →
      (∀ bone ∈ chain, IsPureTranslation bone.AttachmentMatrix) →
      ∀ fuel, chain.length ≤ fuel → ∀ g,
        GetGlobalTransformationMatrix parentGlobal body fuel b g
          = some (translationBy (sumTranslations chain))) ∧
    (∀ (rt : Runtime) (fuel : Nat) (body : geBody) (model result : ms3d_model_t)
      (i : Nat) (sv : geBody_XSkinVertex) (root A B : geBody_Bone) (t0 t1 t2 : geVec3d),
      ConvertGeBodyToMS3D rt fuel body model = some result →
      body.XSkinVertexArray.get? i = some sv →
      sv.XPoint = geVec3d.zero →
      BoneChain body sv.BoneIndex [root, A, B] →
      root.AttachmentMatrix = translationBy t0 →
      A.AttachmentMatrix = translationBy t1 →
      B.AttachmentMatrix = translationBy t2 →
      ∃ v, result.vertices.get? i = some v ∧
        v.vertex 0 = t0.X + t1.X + t2.X ∧
        v.vertex 1 = t0.Y + t1.Y + t2.Y ∧
        v.vertex 2 = t0.Z + t1.Z + t2.Z) := by
  constructor
  · intro parentGlobal body b chain hc hpure fuel hfuel g
    rw [GetGlobalTransformationMatrix_of_chain parentGlobal body b chain hc fuel hfuel g,
      chainProduct_translations chain (BoneChain_ne_nil _ _ _ hc) hpure]
  · intro rt fuel body model result i sv root A B t0 t1 t2 h hsv hzero hc h0 h1 h2
    obtain ⟨globalMatrix, hg, v, hget, _, hvertex, _, _⟩ :=
      ConvertGeBodyToMS3D_vertex rt fuel body model result h i sv hsv
    have hpure : ∀ bone ∈ [root, A, B], IsPureTranslation bone.AttachmentMatrix := by
      intro bone hbone
      simp only [List.mem_cons, List.mem_singleton, List.not_mem_nil, or_false] at hbone
      rcases hbone with rfl | rfl | rfl
      · rw [IsPureTranslation, h0]; rfl
      · rw [IsPureTranslation, h1]; rfl
      · rw [IsPureTranslation, h2]; rfl
    have hgm := GetGlobalTransformationMatrix_eq_of_chain _ body _ _ hc fuel _ globalMatrix hg
    rw [chainProduct_translations _ (by simp) hpure] at hgm
    rw [hgm, hzero, geXForm3d_Transform_translationBy_zero] at hvertex
    refine ⟨v, hget, ?_, ?_, ?_⟩
    · rw [hvertex]
      simp [sumTranslations, geVec3d.add, geVec3d.zero, h0, h1, h2, translationBy]
    · rw [hvertex]
      simp [sumTranslations, geVec3d.add, geVec3d.zero, h0, h1, h2, translationBy]
    · rw [hvertex]
      simp [sumTranslations, geVec3d.add, geVec3d.zero, h0, h1, h2, translationBy]

/-- Claim C5 on the example body: vertex 0, at the origin of bone `B`, gets the
position `(1, 2, 3)`, and bone `B` resolves to the translation by `(1, 2, 3)`. -/
theorem translation_chain_composition_witness :
    (BoneChain exampleBody 2 exampleBones ∧
      (∀ bone ∈ exampleBones, IsPureTranslation bone.AttachmentMatrix) ∧
      GetGlobalTransformationMatrix default exampleBody 3 2 default
        = some (translationBy { X := 1, Y := 2, Z := 3 })) ∧
    (ConvertGeBodyToMS3D exampleRuntime 3 exampleBody (mainModel exampleBody)
        = some exampleResult ∧
      ∃ v, exampleResult.vertices.get? 0 = some v ∧
        v.vertex 0 = 1 ∧ v.vertex 1 = 2 ∧ v.vertex 2 = 3) :=
  ⟨⟨exampleChain, by decide,
    (translation_chain_composition.1 default exampleBody 2 exampleBones exampleChain
      (by decide) 3 (by decide) default).trans
      (by norm_num [sumTranslations, exampleBones, exampleBoneRoot, exampleBoneA, exampleBoneB,
        geVec3d.add, geVec3d.zero, translationBy])⟩,
   exampleResult_eq,
   by
    simpa using translation_chain_composition.2 exampleRuntime 3 exampleBody
      (mainModel exampleBody) exampleResult 0 _ exampleBoneRoot exampleBoneA exampleBoneB
      { X := 1, Y := 0, Z := 0 } { X := 0, Y := 2, Z := 0 } { X := 0, Y := 0, Z := 3 }
      exampleResult_eq rfl rfl exampleChain rfl rfl rfl⟩

/-! ## Joints -/

theorem copyInto_eq_some (width : Nat) (src dst : String) (h : copyInto width src = some dst) :
    dst = src ∧ src.length < width := by
  unfold copyInto at h
  split at h
  · rename_i hlt
    exact ⟨(Option.some.inj h).symm, hlt⟩
  · exact absurd h (by simp)

theorem copyInto_of_lt (width : Nat) (src : String) (h : src.length < width) :
    copyInto width src = some src := by
  unfold copyInto
  rw [if_pos h]

theorem bind_copyInto_eq_some (width : Nat) (o : Option String) (dst : String)
    (h : o.bind (copyInto width) = some dst) : o = some dst := by
  cases o with
  | none => simp at h
  | some src =>
    simp only [Option.some_bind] at h
    rw [(copyInto_eq_some _ _ _ h).1]

/-- The value that a successful joint loop stores for bone `i`. -/
theorem ConvertGeBodyToMS3D_joint (rt : Runtime) (fuel : Nat) (body : geBody)
    (model result : ms3d_model_t) (h : ConvertGeBodyToMS3D rt fuel body model = some result)
    (i : Nat) (bone : geBody_Bone) (hb : body.BoneArray.get? i = some bone) :
    ∃ joint, result.joints.get? i = some joint ∧
      geStrBlock_GetString body.BoneNames i = some joint.name ∧
      (if bone.ParentBoneIndex = -1 then some ""
        else geStrBlock_GetString body.BoneNames bone.ParentBoneIndex) = some joint.parentName ∧
      joint.rotation
        = ![(QuaternionToEuler rt (rt.geQuaternion_FromMatrix bone.AttachmentMatrix)).X,
            (QuaternionToEuler rt (rt.geQuaternion_FromMatrix bone.AttachmentMatrix)).Y,
            (QuaternionToEuler rt (rt.geQuaternion_FromMatrix bone.AttachmentMatrix)).Z] ∧
      joint.position = ![bone.AttachmentMatrix.Translation.X, bone.AttachmentMatrix.Translation.Y,
                         bone.AttachmentMatrix.Translation.Z] ∧
      joint.flags = 0 ∧ joint.numKeyFramesRot = 0 ∧ joint.numKeyFramesTrans = 0 := by
  obtain ⟨_, _, _, _, _, _, hj⟩ := ConvertGeBodyToMS3D_eq_some rt fuel body model result h
  have hi : i < body.BoneCount := by
    by_contra hge
    have := List.get?_eq_none.mpr (Nat.le_of_not_lt hge)
    rw [this] at hb
    exact absurd hb (by simp)
  obtain ⟨j0, joint, _, hconv, hget⟩ := updateFrom_get _ _ _ _ _ hj i hi
  rw [Nat.zero_add] at hconv
  unfold convertJoint at hconv
  rw [hb] at hconv
  simp only at hconv
  split at hconv
  · rename_i name parentName hname hparent
    simp only [Option.some.injEq] at hconv
    subst hconv
    refine ⟨_, hget, bind_copyInto_eq_some _ _ _ hname, ?_, rfl, rfl, rfl, rfl, rfl⟩
    by_cases hp : bone.ParentBoneIndex = -1
    · rw [if_pos hp] at hparent ⊢
      exact hparent
    · rw [if_neg hp] at hparent ⊢
      exact bind_copyInto_eq_some _ _ _ hparent
  · exact absurd hconv (by simp)

/-- Claim C7: in the model left by `ConvertGeBodyToMS3D`, joint `i` has the name
that the bone-name lookup returns for `i`; its parent name is the empty string
when the parent index of bone `i` is `-1`, and otherwise the name that the
lookup returns for the parent index. -/
theorem joint_parent_name (rt : Runtime) (fuel : Nat) (body : geBody)
    (model result : ms3d_model_t) (h : ConvertGeBodyToMS3D rt fuel body model = some result)
    (i : Nat) (bone : geBody_Bone) (hb : body.BoneArray.get? i = some bone) :
    ∃ joint, result.joints.get? i = some joint ∧
      geStrBlock_GetString body.BoneNames i = some joint.name ∧
      (bone.ParentBoneIndex = -1 → joint.parentName = "") ∧
      (bone.ParentBoneIndex ≠ -1 →
        geStrBlock_GetString body.BoneNames bone.ParentBoneIndex = some joint.parentName) := by
  obtain ⟨joint, hget, hname, hparent, _⟩ :=
    ConvertGeBodyToMS3D_joint rt fuel body model result h i bone hb
  refine ⟨joint, hget, hname, ?_, ?_⟩
  · intro hp
    rw [if_pos hp] at hparent
    exact (Option.some.inj hparent).symm
  · intro hp
    rw [if_neg hp] at hparent
    exact hparent

/-- Claim C7 on the example body: joint 0 is `root` with no parent name, joint
2 is `B` with parent name `A`. -/
theorem joint_parent_name_witness :
    ConvertGeBodyToMS3D exampleRuntime 3 exampleBody (mainModel exampleBody) = some exampleResult ∧
    (∃ joint, exampleResult.joints.get? 0 = some joint ∧
      some "root" = some joint.name ∧ joint.parentName = "") ∧
    (∃ joint, exampleResult.joints.get? 2 = some joint ∧
      some "B" = some joint.name ∧ some "A" = some joint.parentName) := by
  refine ⟨exampleResult_eq, ?_, ?_⟩
  · obtain ⟨joint, h1, h2, h3, _⟩ := joint_parent_name exampleRuntime 3 exampleBody
      (mainModel exampleBody) exampleResult exampleResult_eq 0 exampleBoneRoot rfl
    exact ⟨joint, h1, h2, h3 rfl⟩
  · obtain ⟨joint, h1, h2, _, h4⟩ := joint_parent_name exampleRuntime 3 exampleBody
      (mainModel exampleBody) exampleResult exampleResult_eq 2 exampleBoneB rfl
    exact ⟨joint, h1, h2, h4 (by decide)⟩

/-! ## Rotation conversion -/

theorem M_PI_half_pos : 0 < M_PI / 2 := by
  norm_num [M_PI]

/-- Value of the pitch when the pitch argument saturates. -/
theorem gimbal_lock_value (rt : Runtime) (q : geQuaternion) :
    (1 ≤ sinp q →
      (if |sinp q| ≥ 1 then copysign (M_PI / 2) (sinp q) else rt.asin (sinp q)) = M_PI / 2) ∧
    (sinp q ≤ -1 →
      (if |sinp q| ≥ 1 then copysign (M_PI / 2) (sinp q) else rt.asin (sinp q))
        = -(M_PI / 2)) := by
  constructor
  · intro h
    have habs : |sinp q| ≥ 1 := le_trans h (le_abs_self _)
    have hneg : ¬ sinp q < 0 := by linarith
    simp only [if_pos habs, copysign, if_neg hneg]
    exact abs_of_pos M_PI_half_pos
  · intro h
    have habs : |sinp q| ≥ 1 := by
      have := neg_le_abs (sinp q)
      linarith
    have hneg : sinp q < 0 := by linarith
    simp only [if_pos habs, copysign, if_pos hneg]
    rw [abs_of_pos M_PI_half_pos]

/-- Claim C8 (exact arithmetic): when the pitch argument `2(wy - zx)` is `+1`
(or larger) the pitch returned by `QuaternionToEuler` is `M_PI / 2`, when it is
`-1` (or smaller) the pitch is `-(M_PI / 2)`; `asin` is not applied, whatever
the runtime. -/
theorem gimbal_lock_pitch (rt : Runtime) (q : geQuaternion) :
    (1 ≤ sinp q → (QuaternionToEuler rt q).Y = M_PI / 2) ∧
    (sinp q ≤ -1 → (QuaternionToEuler rt q).Y = -(M_PI / 2)) := by
  constructor
  · intro h
    have habs : |sinp q| ≥ 1 := le_trans h (le_abs_self _)
    have hneg : ¬ sinp q < 0 := by linarith
    simp only [QuaternionToEuler, if_pos habs, copysign, if_neg hneg]
    exact abs_of_pos M_PI_half_pos
  · intro h
    have habs : |sinp q| ≥ 1 := by
      have := neg_le_abs (sinp q)
      linarith
    have hneg : sinp q < 0 := by linarith
    simp only [QuaternionToEuler, if_pos habs, copysign, if_pos hneg]
    rw [abs_of_pos M_PI_half_pos]

/-- Claim C8 at the quaternions `(w, x, y, z) = (1, 0, 1/2, 0)` and
`(1, 0, -1/2, 0)`, whose pitch arguments are `1` and `-1`. -/
theorem gimbal_lock_pitch_witness :
    (1 ≤ sinp { W := 1, X := 0, Y := 1 / 2, Z := 0 } ∧
      (QuaternionToEuler exampleRuntime { W := 1, X := 0, Y := 1 / 2, Z := 0 }).Y = M_PI / 2) ∧
    (sinp { W := 1, X := 0, Y := -1 / 2, Z := 0 } ≤ -1 ∧
      (QuaternionToEuler exampleRuntime { W := 1, X := 0, Y := -1 / 2, Z := 0 }).Y
        = -(M_PI / 2)) :=
  ⟨⟨by norm_num [sinp],
    (gimbal_lock_pitch exampleRuntime { W := 1, X := 0, Y := 1 / 2, Z := 0 }).1
      (by norm_num [sinp])⟩,
   ⟨by norm_num [sinp],
    (gimbal_lock_pitch exampleRuntime { W := 1, X := 0, Y := -1 / 2, Z := 0 }).2
      (by norm_num [sinp])⟩⟩

/-- Claim C9 (exact arithmetic, with `atan2(0, 1) = 0` and `asin(0) = 0` in the
C library): for a bone whose attachment transform converts to the quaternion
`w = 1, x = y = z = 0`, the rotation stored in the joint is `(0, 0, 0)`. -/
theorem identity_rotation_euler (rt : Runtime) (fuel : Nat) (body : geBody)
    (model result : ms3d_model_t) (h : ConvertGeBodyToMS3D rt fuel body model = some result)
    (i : Nat) (bone : geBody_Bone) (hb : body.BoneArray.get? i = some bone)
    (hq : rt.geQuaternion_FromMatrix bone.AttachmentMatrix = { W := 1, X := 0, Y := 0, Z := 0 })
    (hatan2 : rt.atan2 0 1 = 0) (hasin : rt.asin 0 = 0) :
    ∃ joint, result.joints.get? i = some joint ∧
      joint.rotation 0 = 0 ∧ joint.rotation 1 = 0 ∧ joint.rotation 2 = 0 := by
  obtain ⟨joint, hget, _, _, hrot, _⟩ :=
    ConvertGeBodyToMS3D_joint rt fuel body model result h i bone hb
  have he : QuaternionToEuler rt { W := 1, X := 0, Y := 0, Z := 0 }
      = { X := 0, Y := 0, Z := 0 } := by
    simp [QuaternionToEuler, sinp, hatan2, hasin]
  rw [hq, he] at hrot
  exact ⟨joint, hget, by rw [hrot]; rfl, by rw [hrot]; rfl, by rw [hrot]; rfl⟩

/-- Claim C9 on joint 0 of the example body. -/
theorem identity_rotation_euler_witness :
    ConvertGeBodyToMS3D exampleRuntime 3 exampleBody (mainModel exampleBody) = some exampleResult ∧
    exampleRuntime.atan2 0 1 = 0 ∧ exampleRuntime.asin 0 = 0 ∧
    ∃ joint, exampleResult.joints.get? 0 = some joint ∧
      joint.rotation 0 = 0 ∧ joint.rotation 1 = 0 ∧ joint.rotation 2 = 0 :=
  ⟨exampleResult_eq, by norm_num [exampleRuntime], rfl,
   identity_rotation_euler exampleRuntime 3 exampleBody (mainModel exampleBody) exampleResult
     exampleResult_eq 0 exampleBoneRoot rfl rfl (by norm_num [exampleRuntime]) rfl⟩

/-! ## Triangles -/

theorem updateFrom_isSome {β : Type} (f : Nat → β → Option β) (count : Nat) :
    ∀ (start : Nat) (l : List β), count ≤ l.length →
      (∀ k, k < count → ∀ b, l.get? k = some b → ∃ c, f (start + k) b = some c) →
      ∃ out, updateFrom f start count l = some out := by
  induction count with
  | zero =>
    intro start l _ _
    exact ⟨l, rfl⟩
  | succ n ih =>
    intro start l hlen hf
    cases l with
    | nil => simp at hlen
    | cons b bs =>
      obtain ⟨b1, hb1⟩ := hf 0 (Nat.succ_pos _) b rfl
      obtain ⟨rest, hrest⟩ := ih (start + 1) bs (by simpa using hlen) (by
        intro k hk b2 hb2
        have := hf (k + 1) (by omega) b2 (by simpa using hb2)
        rwa [show start + 1 + k = start + (k + 1) by omega])
      refine ⟨b1 :: rest, ?_⟩
      rw [Nat.add_zero] at hb1
      simp only [updateFrom, hb1, hrest]

/-- The converter succeeds when its four loops do. -/
theorem ConvertGeBodyToMS3D_of_loops (rt : Runtime) (fuel : Nat) (body : geBody)
    (model : ms3d_model_t) (vertices : List ms3d_vertex_t) (triangles : List ms3d_triangle_t)
    (materials : List ms3d_material_t) (joints : List ms3d_joint_t)
    (hv : updateFrom (convertVertex rt fuel body) 0 body.XSkinVertexCount model.vertices
      = some vertices)
    (ht : updateFrom (convertTriangle body) 0 body.FaceCount model.triangles = some triangles)
    (hm : updateFrom (convertMaterial (GetMaterialNames body.MaterialNames)) 0 body.MaterialCount
      model.materials = some materials)
    (hj : updateFrom (convertJoint rt body) 0 body.BoneCount model.joints = some joints) :
    ∃ result, ConvertGeBodyToMS3D rt fuel body model = some result := by
  unfold ConvertGeBodyToMS3D
  simp only [hv, ht, hm, hj]
  exact ⟨_, rfl⟩

/-- The value that a successful triangle loop stores for face `i`. -/
theorem ConvertGeBodyToMS3D_triangle (rt : Runtime) (fuel : Nat) (body : geBody)
    (model result : ms3d_model_t) (h : ConvertGeBodyToMS3D rt fuel body model = some result)
    (i : Nat) (triangle : geBody_Triangle) (ht : body.FaceArray.get? i = some triangle) :
    ∃ out, result.triangles.get? i = some out ∧
      out.flags = 0 ∧ out.smoothingGroup = 1 ∧ out.groupIndex = 0 ∧
      ∀ j : Fin 3,
        out.vertexIndices j = toUInt16 (triangle.VtxIndex j) ∧
        (∃ n, readAt body.SkinNormalArray (triangle.NormalIndex j) = some n ∧
          out.vertexNormals j = ![n.Normal.X, n.Normal.Y, n.Normal.Z]) ∧
        (∃ v, readAt body.XSkinVertexArray (triangle.VtxIndex j) = some v ∧
          out.s j = v.XU ∧ out.t j = v.XV) := by
  obtain ⟨_, _, htri, _⟩ := ConvertGeBodyToMS3D_eq_some rt fuel body model result h
  have hi : i < body.FaceCount := by
    by_contra hge
    have := List.get?_eq_none.mpr (Nat.le_of_not_lt hge)
    rw [this] at ht
    exact absurd ht (by simp)
  obtain ⟨t0, out, _, hconv, hget⟩ := updateFrom_get _ _ _ _ _ htri i hi
  rw [Nat.zero_add] at hconv
  unfold convertTriangle at hconv
  rw [ht] at hconv
  simp only at hconv
  split at hconv
  · rename_i n0 n1 n2 v0 v1 v2 hn0 hn1 hn2 hv0 hv1 hv2
    simp only [Option.some.injEq] at hconv
    subst hconv
    refine ⟨_, hget, rfl, rfl, rfl, ?_⟩
    intro j
    fin_cases j
    · exact ⟨rfl, ⟨n0, hn0, rfl⟩, ⟨v0, hv0, rfl, rfl⟩⟩
    · exact ⟨rfl, ⟨n1, hn1, rfl⟩, ⟨v1, hv1, rfl, rfl⟩⟩
    · exact ⟨rfl, ⟨n2, hn2, rfl⟩, ⟨v2, hv2, rfl, rfl⟩⟩
  · exact absurd hconv (by simp)

theorem readAt_eq_some {α : Type} (a : List α) (i : Int) (x : α) (h : readAt a i = some x) :
    0 ≤ i ∧ i < a.length := by
  unfold readAt at h
  split at h
  · rename_i h0
    refine ⟨h0, ?_⟩
    have hlt : i.toNat < a.length := by
      by_contra hge
      rw [List.get?_eq_none.mpr (Nat.le_of_not_lt hge)] at h
      exact absurd h (by simp)
    omega
  · exact absurd h (by simp)

/-- Claim C10: for a body whose skin-vertex count is a `geBody_Index`, after a
run of `ConvertGeBodyToMS3D` (which reads every vertex and normal index of
every face inside its array), the three `vertexIndices` of output triangle `i`
are the
three vertex indices of face `i` and are less than the number of output
vertices; the normal of corner `j` is the source normal at the face's `j`-th
normal index and its `(s, t)` is the `(XU, XV)` of the source vertex at the
face's `j`-th vertex index. -/
theorem triangle_index_validity (rt : Runtime) (fuel : Nat) (body : geBody)
    (model result : ms3d_model_t) (h : ConvertGeBodyToMS3D rt fuel body model = some result)
    (hcount : body.XSkinVertexCount ≤ geBody_Index_MAX)
    (i : Nat) (triangle : geBody_Triangle) (ht : body.FaceArray.get? i = some triangle) :
    ∃ out, result.triangles.get? i = some out ∧
      ∀ j : Fin 3,
        (out.vertexIndices j : Int) = triangle.VtxIndex j ∧
        out.vertexIndices j < result.vertices.length ∧
        (∃ n, readAt body.SkinNormalArray (triangle.NormalIndex j) = some n ∧
          out.vertexNormals j = ![n.Normal.X, n.Normal.Y, n.Normal.Z]) ∧
        (∃ v, readAt body.XSkinVertexArray (triangle.VtxIndex j) = some v ∧
          out.s j = v.XU ∧ out.t j = v.XV) := by
  obtain ⟨out, hget, _, _, _, hout⟩ :=
    ConvertGeBodyToMS3D_triangle rt fuel body model result h i triangle ht
  obtain ⟨_, hv, _⟩ := ConvertGeBodyToMS3D_eq_some rt fuel body model result h
  have hlen := updateFrom_length _ _ _ _ _ hv
  have hle := updateFrom_count_le _ _ _ _ _ hv
  refine ⟨out, hget, fun j => ?_⟩
  obtain ⟨hidx, hnormal, v, hread, huv⟩ := hout j
  obtain ⟨h0, hlt⟩ := readAt_eq_some _ _ _ hread
  have hlt1 : triangle.VtxIndex j < body.XSkinVertexCount := hlt
  unfold geBody_Index_MAX at hcount
  have hval : (toUInt16 (triangle.VtxIndex j) : Int) = triangle.VtxIndex j := by
    unfold toUInt16
    omega
  refine ⟨by rw [hidx, hval], ?_, hnormal, v, hread, huv⟩
  rw [hidx, hlen]
  have : (toUInt16 (triangle.VtxIndex j) : Int) < (model.vertices.length : Int) := by
    rw [hval]
    omega
  exact_mod_cast this

/-- Claim C10 on face 0 of the example body, with vertex indices 0, 1, 2. -/
theorem triangle_index_validity_witness :
    ConvertGeBodyToMS3D exampleRuntime 3 exampleBody (mainModel exampleBody) = some exampleResult ∧
    exampleBody.XSkinVertexCount ≤ geBody_Index_MAX ∧
    ∃ out, exampleResult.triangles.get? 0 = some out ∧
      (out.vertexIndices 0 : Int) = 0 ∧ (out.vertexIndices 1 : Int) = 1 ∧
      (out.vertexIndices 2 : Int) = 2 ∧ out.vertexIndices 2 < exampleResult.vertices.length := by
  refine ⟨exampleResult_eq, by decide, ?_⟩
  obtain ⟨out, hget, hout⟩ := triangle_index_validity exampleRuntime 3 exampleBody
    (mainModel exampleBody) exampleResult exampleResult_eq (by decide) 0
    { VtxIndex := ![0, 1, 2], NormalIndex := ![0, 0, 0], MaterialIndex := 0 } rfl
  exact ⟨out, hget, (hout 0).1, (hout 1).1, (hout 2).1, (hout 2).2.1⟩

theorem mainModel_vertices_length (body : geBody) :
    (mainModel body).vertices.length = body.XSkinVertexCount :=
  List.length_replicate _ _

/-! ## The converter returns on well-formed bodies -/

theorem readAt_isSome {α : Type} (a : List α) (i : Int) (h0 : 0 ≤ i) (h1 : i < a.length) :
    ∃ x, readAt a i = some x := by
  unfold readAt
  rw [if_pos h0]
  have hlt : i.toNat < a.length := by omega
  exact ⟨a.get ⟨i.toNat, hlt⟩, List.get?_eq_get hlt⟩

theorem GetGlobalTransformationMatrix_neg_one (parentGlobal : geXForm3d) (body : geBody)
    (fuel : Nat) (g : geXForm3d) :
    GetGlobalTransformationMatrix parentGlobal body (fuel + 1) (-1) g = some g := by
  simp [GetGlobalTransformationMatrix]

/-- Fuel that serves every skin vertex of a list at once. -/
theorem exists_fuel_for_vertices (parentGlobal : geXForm3d) (body : geBody)
    (l : List geBody_XSkinVertex)
    (h : ∀ sv ∈ l, sv.BoneIndex = -1 ∨ ∃ chain, BoneChain body sv.BoneIndex chain) :
    ∃ N, ∀ sv ∈ l, ∀ fuel, N ≤ fuel → ∀ g,
      ∃ x, GetGlobalTransformationMatrix parentGlobal body fuel sv.BoneIndex g = some x := by
  induction l with
  | nil => exact ⟨0, fun sv hsv => absurd hsv (List.not_mem_nil _)⟩
  | cons sv0 rest ih =>
    obtain ⟨N, hN⟩ := ih (fun sv hsv => h sv (List.mem_cons_of_mem _ hsv))
    rcases h sv0 (List.mem_cons_self _ _) with h0 | ⟨chain, hchain⟩
    · refine ⟨N + 1, ?_⟩
      intro sv hsv fuel hfuel g
      rcases List.mem_cons.mp hsv with rfl | hsv
      · obtain ⟨f, rfl⟩ : ∃ f, fuel = f + 1 := ⟨fuel - 1, by omega⟩
        rw [h0]
        exact ⟨g, GetGlobalTransformationMatrix_neg_one _ _ _ _⟩
      · exact hN sv hsv fuel (by omega) g
    · refine ⟨N + chain.length, ?_⟩
      intro sv hsv fuel hfuel g
      rcases List.mem_cons.mp hsv with rfl | hsv
      · exact ⟨_, GetGlobalTransformationMatrix_of_chain _ _ _ _ hchain fuel (by omega) g⟩
      · exact hN sv hsv fuel (by omega) g

/-- On a well-formed body the conversion that `main` runs returns a model, for
every recursion budget from some bound on. -/
theorem mainConvert_total (rt : Runtime) (body : geBody) (hwf : WellFormedBody body) :
    ∃ N, ∀ fuel, N ≤ fuel → ∃ result, mainConvert rt fuel body = some result := by
  obtain ⟨hvert, hface, hmat, hnames, hparent, hmatLen, hboneLen⟩ := hwf
  obtain ⟨N, hN⟩ := exists_fuel_for_vertices rt.indeterminate body body.XSkinVertexArray hvert
  refine ⟨N, fun fuel hfuel => ?_⟩
  have hv : ∃ vertices, updateFrom (convertVertex rt fuel body) 0 body.XSkinVertexCount
      (mainModel body).vertices = some vertices := by
    apply updateFrom_isSome
    · exact Nat.le_of_eq (mainModel_vertices_length body).symm
    · intro k hk b _
      rw [Nat.zero_add]
      have hk1 : k < body.XSkinVertexArray.length := hk
      have hget : body.XSkinVertexArray.get? k = some (body.XSkinVertexArray.get ⟨k, hk1⟩) :=
        List.get?_eq_get hk1
      obtain ⟨x, hx⟩ := hN _ (List.get_mem _ _ _) fuel hfuel rt.indeterminate
      unfold convertVertex
      rw [hget]
      dsimp only
      rw [hx]
      exact ⟨_, rfl⟩
  have ht : ∃ triangles, updateFrom (convertTriangle body) 0 body.FaceCount
      (mainModel body).triangles = some triangles := by
    apply updateFrom_isSome
    · exact Nat.le_of_eq (List.length_replicate _ _).symm
    · intro k hk b _
      rw [Nat.zero_add]
      have hk1 : k < body.FaceArray.length := hk
      have hget : body.FaceArray.get? k = some (body.FaceArray.get ⟨k, hk1⟩) :=
        List.get?_eq_get hk1
      have hvalid := hface _ (List.get_mem _ _ hk1)
      obtain ⟨n0, hn0⟩ := readAt_isSome body.SkinNormalArray _ (hvalid 0).2.1 (hvalid 0).2.2
      obtain ⟨n1, hn1⟩ := readAt_isSome body.SkinNormalArray _ (hvalid 1).2.1 (hvalid 1).2.2
      obtain ⟨n2, hn2⟩ := readAt_isSome body.SkinNormalArray _ (hvalid 2).2.1 (hvalid 2).2.2
      obtain ⟨v0, hv0⟩ := readAt_isSome body.XSkinVertexArray _ (hvalid 0).1.1 (hvalid 0).1.2
      obtain ⟨v1, hv1⟩ := readAt_isSome body.XSkinVertexArray _ (hvalid 1).1.1 (hvalid 1).1.2
      obtain ⟨v2, hv2⟩ := readAt_isSome body.XSkinVertexArray _ (hvalid 2).1.1 (hvalid 2).1.2
      unfold convertTriangle
      rw [hget]
      simp only [hn0, hn1, hn2, hv0, hv1, hv2]
      exact ⟨_, rfl⟩
  have hm : ∃ materials, updateFrom (convertMaterial (GetMaterialNames body.MaterialNames)) 0
      body.MaterialCount (mainModel body).materials = some materials := by
    apply updateFrom_isSome
    · exact Nat.le_of_eq (List.length_replicate _ _).symm
    · intro k hk b _
      rw [Nat.zero_add]
      have hk1 : k < body.MaterialNames.length := by omega
      have hget : (GetMaterialNames body.MaterialNames).get? k
          = some (body.MaterialNames.get ⟨k, hk1⟩) := List.get?_eq_get hk1
      have hlen : (body.MaterialNames.get ⟨k, hk1⟩).length < 32 :=
        hmatLen _ (List.get_mem _ _ hk1)
      unfold convertMaterial
      rw [hget]
      simp only
      rw [copyInto_of_lt 32 _ hlen,
        copyInto_of_lt 128 _ (by
          have h4 : ".bmp".length = 4 := rfl
          rw [String.length_append, h4]
          omega)]
      exact ⟨_, rfl⟩
  have hj : ∃ joints, updateFrom (convertJoint rt body) 0 body.BoneCount
      (mainModel body).joints = some joints := by
    apply updateFrom_isSome
    · exact Nat.le_of_eq (List.length_replicate _ _).symm
    · intro k hk b _
      rw [Nat.zero_add]
      have hk1 : k < body.BoneArray.length := hk
      have hget : body.BoneArray.get? k = some (body.BoneArray.get ⟨k, hk1⟩) :=
        List.get?_eq_get hk1
      have hk2 : (k : Int) < body.BoneNames.length := by
        have : k < body.BoneNames.length := Nat.lt_of_lt_of_le hk hnames
        exact_mod_cast this
      have hlookup : ∀ idx : Int, 0 ≤ idx → idx < body.BoneNames.length →
          ∃ name, (geStrBlock_GetString body.BoneNames idx).bind (copyInto 32) = some name := by
        intro idx h0 h1
        obtain ⟨name, hname⟩ := readAt_isSome body.BoneNames idx h0 h1
        have hmem : name ∈ body.BoneNames := by
          unfold readAt at hname
          rw [if_pos h0] at hname
          exact List.get?_mem hname
        refine ⟨name, ?_⟩
        unfold geStrBlock_GetString
        rw [hname, Option.some_bind, copyInto_of_lt 32 _ (hboneLen name hmem)]
      obtain ⟨name, hname⟩ := hlookup k (by omega) hk2
      have hpar : ∃ parentName,
          (if (body.BoneArray.get ⟨k, hk1⟩).ParentBoneIndex = -1 then some ""
            else (geStrBlock_GetString body.BoneNames
              (body.BoneArray.get ⟨k, hk1⟩).ParentBoneIndex).bind (copyInto 32))
            = some parentName := by
        rcases hparent _ (List.get_mem _ _ hk1) with hp | ⟨hp0, hp1⟩
        · exact ⟨"", by rw [if_pos hp]⟩
        · by_cases hp : (body.BoneArray.get ⟨k, hk1⟩).ParentBoneIndex = -1
          · exact ⟨"", by rw [if_pos hp]⟩
          · rw [if_neg hp]
            exact hlookup _ hp0 hp1
      obtain ⟨parentName, hparentName⟩ := hpar
      unfold convertJoint
      rw [hget]
      simp only [hname, hparentName]
      exact ⟨_, rfl⟩
  obtain ⟨vertices, hv⟩ := hv
  obtain ⟨triangles, ht⟩ := ht
  obtain ⟨materials, hm⟩ := hm
  obtain ⟨joints, hj⟩ := hj
  exact ConvertGeBodyToMS3D_of_loops rt fuel body (mainModel body) vertices triangles materials
    joints hv ht hm hj

/-! ## Vertex metadata -/

set_option maxRecDepth 100000 in
/-- The conversion of the body with 201 bones succeeds. -/
theorem manyBonesResult_eq :
    mainConvert exampleRuntime 1 manyBonesBody = some manyBonesResult := by
  rfl

/-- Claim C11, for an owning bone index in `-128..127`: output vertex `i` has
`boneId` equal to the owning bone index of skin vertex `i`, `flags` 0 and
`referenceCount` 0. For any bone index `boneId` is the index cast to `char`. -/
theorem vertex_bone_index (rt : Runtime) (fuel : Nat) (body : geBody)
    (model result : ms3d_model_t) (h : ConvertGeBodyToMS3D rt fuel body model = some result)
    (i : Nat) (sv : geBody_XSkinVertex) (hsv : body.XSkinVertexArray.get? i = some sv) :
    ∃ v, result.vertices.get? i = some v ∧
      v.flags = 0 ∧ v.referenceCount = 0 ∧
      v.boneId = toChar sv.BoneIndex ∧
      (InCharRange sv.BoneIndex → v.boneId = sv.BoneIndex) := by
  obtain ⟨_, _, v, hget, hflags, _, hbone, href⟩ :=
    ConvertGeBodyToMS3D_vertex rt fuel body model result h i sv hsv
  refine ⟨v, hget, hflags, href, hbone, fun hrange => ?_⟩
  rw [hbone, toChar_of_inRange _ hrange]

/-- Claim C11 on vertex 0 of the example body, owned by bone 2. -/
theorem vertex_bone_index_witness :
    ConvertGeBodyToMS3D exampleRuntime 3 exampleBody (mainModel exampleBody) = some exampleResult ∧
    InCharRange 2 ∧
    ∃ v, exampleResult.vertices.get? 0 = some v ∧
      v.flags = 0 ∧ v.referenceCount = 0 ∧ v.boneId = 2 := by
  refine ⟨exampleResult_eq, by decide, ?_⟩
  obtain ⟨v, hget, hflags, href, _, hbone⟩ := vertex_bone_index exampleRuntime 3 exampleBody
    (mainModel exampleBody) exampleResult exampleResult_eq 0
    { XPoint := { X := 0, Y := 0, Z := 0 }, XU := 1 / 4, XV := 1 / 2, BoneIndex := 2 } rfl
  exact ⟨v, hget, hflags, href, hbone (by decide)⟩

/-- Claim C11 fails for a skin vertex owned by bone 200 of a body with 201
bones: the conversion succeeds and the `boneId` of the output vertex is `-56`. -/
theorem vertex_bone_index_fails :
    ConvertGeBodyToMS3D exampleRuntime 1 manyBonesBody (mainModel manyBonesBody)
      = some manyBonesResult ∧
    ∃ sv v, manyBonesBody.XSkinVertexArray.get? 0 = some sv ∧
      manyBonesResult.vertices.get? 0 = some v ∧
      sv.BoneIndex = 200 ∧ v.boneId = -56 ∧ v.boneId ≠ sv.BoneIndex := by
  refine ⟨manyBonesResult_eq, ?_⟩
  obtain ⟨_, _, v, hget, _, _, hbone, _⟩ := ConvertGeBodyToMS3D_vertex exampleRuntime 1
    manyBonesBody (mainModel manyBonesBody) manyBonesResult manyBonesResult_eq 0
    { XPoint := { X := 0, Y := 0, Z := 0 }, XU := 0, XV := 0, BoneIndex := 200 } rfl
  have h56 : v.boneId = -56 := by
    rw [hbone]
    decide
  refine ⟨_, v, rfl, hget, rfl, h56, ?_⟩
  rw [h56]
  decide

/-! ## Materials -/

/-- The value that a successful material loop stores for material `i`. -/
theorem ConvertGeBodyToMS3D_material (rt : Runtime) (fuel : Nat) (body : geBody)
    (model result : ms3d_model_t) (h : ConvertGeBodyToMS3D rt fuel body model = some result)
    (i : Nat) (hi : i < body.MaterialCount) :
    ∃ name mat, body.MaterialNames.get? i = some name ∧
      result.materials.get? i = some mat ∧
      mat.name = name ∧ mat.texture = name ++ ".bmp" ∧ mat.alphamap = "" ∧
      mat.ambient = ![1, 1, 1, 1] ∧ mat.diffuse = ![1, 1, 1, 1] ∧
      mat.specular = ![0, 0, 0, 1] ∧ mat.emissive = ![0, 0, 0, 1] ∧
      mat.shininess = 0 ∧ mat.transparency = 1 ∧ mat.mode = 2 := by
  obtain ⟨_, _, _, _, hm, _⟩ := ConvertGeBodyToMS3D_eq_some rt fuel body model result h
  obtain ⟨m0, mat, _, hconv, hget⟩ := updateFrom_get _ _ _ _ _ hm i hi
  rw [Nat.zero_add] at hconv
  unfold convertMaterial GetMaterialNames at hconv
  split at hconv
  · exact absurd hconv (by simp)
  · rename_i name hname
    split at hconv
    · rename_i matName matTexture h1 h2
      simp only [Option.some.injEq] at hconv
      subst hconv
      exact ⟨name, _, hname, hget, (copyInto_eq_some _ _ _ h1).1, (copyInto_eq_some _ _ _ h2).1,
        rfl, rfl, rfl, rfl, rfl, rfl, rfl, rfl⟩
    · exact absurd hconv (by simp)

/-- Claim C12: after a run of `ConvertGeBodyToMS3D`, for the source material
name at position `i` the output material `i` has that name, the texture name
followed by `.bmp`, an empty alphamap, ambient and diffuse `(1,1,1,1)`,
specular and emissive `(0,0,0,1)`, shininess 0, transparency 1 and mode 2. -/
theorem material_synthesis (rt : Runtime) (fuel : Nat) (body : geBody)
    (model result : ms3d_model_t) (h : ConvertGeBodyToMS3D rt fuel body model = some result)
    (i : Nat) (hi : i < body.MaterialCount) (name : String)
    (hname : body.MaterialNames.get? i = some name) :
    ∃ mat, result.materials.get? i = some mat ∧
      mat.name = name ∧ mat.texture = name ++ ".bmp" ∧ mat.alphamap = "" ∧
      mat.ambient = ![1, 1, 1, 1] ∧ mat.diffuse = ![1, 1, 1, 1] ∧
      mat.specular = ![0, 0, 0, 1] ∧ mat.emissive = ![0, 0, 0, 1] ∧
      mat.shininess = 0 ∧ mat.transparency = 1 ∧ mat.mode = 2 := by
  obtain ⟨name1, mat, hname1, hget, hrest⟩ :=
    ConvertGeBodyToMS3D_material rt fuel body model result h i hi
  rw [hname] at hname1
  obtain rfl := Option.some.inj hname1
  exact ⟨mat, hget, hrest⟩

/-- Claim C12 on material 1 of the example body, named `cloth`. -/
theorem material_synthesis_witness :
    ConvertGeBodyToMS3D exampleRuntime 3 exampleBody (mainModel exampleBody) = some exampleResult ∧
    1 < exampleBody.MaterialCount ∧ exampleBody.MaterialNames.get? 1 = some "cloth" ∧
    ∃ mat, exampleResult.materials.get? 1 = some mat ∧
      mat.name = "cloth" ∧ mat.texture = "cloth.bmp" ∧ mat.alphamap = "" ∧
      mat.ambient = ![1, 1, 1, 1] ∧ mat.diffuse = ![1, 1, 1, 1] ∧
      mat.specular = ![0, 0, 0, 1] ∧ mat.emissive = ![0, 0, 0, 1] ∧
      mat.shininess = 0 ∧ mat.transparency = 1 ∧ mat.mode = 2 :=
  ⟨exampleResult_eq, by decide, rfl,
   material_synthesis exampleRuntime 3 exampleBody (mainModel exampleBody) exampleResult
     exampleResult_eq 1 (by decide) "cloth" rfl⟩

/-! ## Resolver sentinel -/

/-- Claim C13: a call of `GetGlobalTransformationMatrix` with bone index `-1`
returns with the output transform as it was before the call, for every body
and every prior value. -/
theorem resolver_sentinel (parentGlobal : geXForm3d) (body : geBody) (fuel : Nat)
    (globalMatrix : geXForm3d) :
    GetGlobalTransformationMatrix parentGlobal body (fuel + 1) (-1) globalMatrix
      = some globalMatrix := by
  rw [GetGlobalTransformationMatrix]
  rfl

/-! ## Binary layout -/

theorem length_flatMap_const {α : Type} (f : α → List Nat) (size : Nat)
    (h : ∀ x, (f x).length = size) (l : List α) : (l.flatMap f).length = l.length * size := by
  induction l with
  | nil => simp
  | cons x xs ih =>
    rw [List.flatMap_cons, List.length_append, h, ih, List.length_cons]
    ring

theorem length_charCodes (width : Nat) (codes : List Nat) :
    (charCodes width codes).length = width := by
  simp [charCodes]

theorem length_charField (width : Nat) (str : String) : (charField width str).length = width :=
  length_charCodes _ _

theorem length_float3 (codec : Float32Codec) (v : Fin 3 → geFloat) :
    (float3 codec v).length = 12 := by
  simp [float3, codec.size]

theorem length_float4 (codec : Float32Codec) (v : Fin 4 → geFloat) :
    (float4 codec v).length = 16 := by
  simp [float4, codec.size]

theorem length_header_encode (h : ms3d_header_t) : h.encode.length = 14 := by
  simp [ms3d_header_t.encode, length_charCodes, i32le, u32le]

theorem length_vertex_encode (codec : Float32Codec) (v : ms3d_vertex_t) :
    (v.encode codec).length = 15 := by
  simp [ms3d_vertex_t.encode, length_float3, u8, charByte]

theorem length_triangle_encode (codec : Float32Codec) (t : ms3d_triangle_t) :
    (t.encode codec).length = 70 := by
  simp [ms3d_triangle_t.encode, length_float3, u8, u16le]

theorem length_material_encode (codec : Float32Codec) (m : ms3d_material_t) :
    (m.encode codec).length = 361 := by
  simp [ms3d_material_t.encode, length_float4, length_charField, codec.size, charByte]

theorem length_joint_encode (codec : Float32Codec) (j : ms3d_joint_t) :
    (j.encode codec).length = 93 := by
  simp [ms3d_joint_t.encode, length_float3, length_charField, u8, u16le]

theorem length_anim_controls_encode (codec : Float32Codec) (a : ms3d_anim_controls_t) :
    (a.encode codec).length = 12 := by
  simp [ms3d_anim_controls_t.encode, codec.size, u32le]

theorem length_writeGroup (g : ms3d_group_t) :
    (writeGroup g).length = 36 + 2 * g.triangleIndices.length := by
  have h2 : (g.triangleIndices.flatMap u16le).length = g.triangleIndices.length * 2 :=
    length_flatMap_const u16le 2 (fun _ => rfl) _
  simp only [writeGroup, List.length_append, length_charField, h2, u8, u16le, charByte,
    List.length_cons, List.length_nil]
  omega

theorem length_flatMap_writeGroup (groups : List ms3d_group_t) :
    (groups.flatMap writeGroup).length = 36 * groups.length + 2 * totalTriangleIndices groups := by
  induction groups with
  | nil => rfl
  | cons g gs ih =>
    rw [List.flatMap_cons, List.length_append, ih, length_writeGroup]
    simp only [totalTriangleIndices, List.map_cons, List.sum_cons, List.length_cons]
    omega

/-- With fewer than 65536 elements `WriteVectorToFile` writes the size and then
every record. -/
theorem WriteVectorToFile_of_lt {α : Type} (encode : α → List Nat) (data : List α)
    (h : data.length < 65536) :
    WriteVectorToFile encode data = u16le data.length ++ data.flatMap encode := by
  unfold WriteVectorToFile
  simp only [toUInt16_of_lt _ h, List.take_length]

/-- Claim C14: for a model whose vertex, triangle, group, material and joint
counts are below 65536, the bytes written by `WriteMS3DFile` are, in this
order: the 14-byte header; the 16-bit vertex count and the 15-byte vertex
records; the 16-bit triangle count and the 70-byte triangle records; the
16-bit group count and, per group, 1 flags byte, the 32-byte name, the 16-bit
`numtriangles`, one 16-bit value per triangle index and 1 material-index byte;
the 16-bit material count and the 361-byte material records; the 12-byte
animation-control record; the 16-bit joint count and the 93-byte joint
records. The total length is `36 + 15 V + 70 T + 36 G + 2 S + 361 M + 93 J`
with `S` the sum of the lengths of the groups' triangle lists (no bound on
these lists is needed). -/
theorem binary_layout (codec : Float32Codec) (model : ms3d_model_t)
    (hV : model.vertices.length < 65536) (hT : model.triangles.length < 65536)
    (hG : model.groups.length < 65536) (hM : model.materials.length < 65536)
    (hJ : model.joints.length < 65536) :
    ∃ bytes, WriteMS3DFile codec true model = some bytes ∧
      bytes = model.header.encode
        ++ (u16le model.vertices.length ++ model.vertices.flatMap (ms3d_vertex_t.encode codec))
        ++ (u16le model.triangles.length
              ++ model.triangles.flatMap (ms3d_triangle_t.encode codec))
        ++ (u16le model.groups.length
              ++ model.groups.flatMap (fun g =>
                   u8 g.flags ++ charField 32 g.name ++ u16le g.numtriangles
                     ++ g.triangleIndices.flatMap u16le ++ charByte g.materialIndex))
        ++ (u16le model.materials.length
              ++ model.materials.flatMap (ms3d_material_t.encode codec))
        ++ model.animControls.encode codec
        ++ (u16le model.joints.length ++ model.joints.flatMap (ms3d_joint_t.encode codec)) ∧
      model.header.encode.length = 14 ∧
      (∀ v : ms3d_vertex_t, (v.encode codec).length = 15) ∧
      (∀ t : ms3d_triangle_t, (t.encode codec).length = 70) ∧
      (∀ g : ms3d_group_t, (charField 32 g.name).length = 32 ∧
        (g.triangleIndices.flatMap u16le).length = 2 * g.triangleIndices.length) ∧
      (∀ m : ms3d_material_t, (m.encode codec).length = 361) ∧
      (model.animControls.encode codec).length = 12 ∧
      (∀ j : ms3d_joint_t, (j.encode codec).length = 93) ∧
      bytes.length = 36 + 15 * model.vertices.length + 70 * model.triangles.length
        + 36 * model.groups.length + 2 * totalTriangleIndices model.groups
        + 361 * model.materials.length + 93 * model.joints.length := by
  have hbytes : WriteMS3DFile codec true model = some (model.header.encode
        ++ (u16le model.vertices.length ++ model.vertices.flatMap (ms3d_vertex_t.encode codec))
        ++ (u16le model.triangles.length
              ++ model.triangles.flatMap (ms3d_triangle_t.encode codec))
        ++ (u16le model.groups.length ++ model.groups.flatMap writeGroup)
        ++ (u16le model.materials.length
              ++ model.materials.flatMap (ms3d_material_t.encode codec))
        ++ model.animControls.encode codec
        ++ (u16le model.joints.length
              ++ model.joints.flatMap (ms3d_joint_t.encode codec))) := by
    unfold WriteMS3DFile
    rw [if_pos rfl, WriteVectorToFile_of_lt _ _ hV, WriteVectorToFile_of_lt _ _ hT,
      WriteVectorToFile_of_lt _ _ hM, WriteVectorToFile_of_lt _ _ hJ, toUInt16_of_lt _ hG]
  refine ⟨_, hbytes, rfl, length_header_encode _, length_vertex_encode codec,
    length_triangle_encode codec, ?_, length_material_encode codec,
    length_anim_controls_encode codec _, length_joint_encode codec, ?_⟩
  · intro g
    refine ⟨length_charField _ _, ?_⟩
    rw [length_flatMap_const u16le 2 (fun _ => rfl), Nat.mul_comm]
  · simp only [List.length_append, length_header_encode, length_anim_controls_encode,
      length_flatMap_const _ 15 (length_vertex_encode codec),
      length_flatMap_const _ 70 (length_triangle_encode codec),
      length_flatMap_const _ 361 (length_material_encode codec),
      length_flatMap_const _ 93 (length_joint_encode codec),
      length_flatMap_writeGroup, u16le, List.length_cons, List.length_nil]
    omega

/-- Claim C14 on the model converted from the example body: 3 vertices, 3
triangles, 3 groups of one triangle each, 2 materials and 3 joints give a file
of 1406 bytes. -/
theorem binary_layout_witness :
    exampleResult.vertices.length < 65536 ∧ exampleResult.triangles.length < 65536 ∧
    exampleResult.groups.length < 65536 ∧ exampleResult.materials.length < 65536 ∧
    exampleResult.joints.length < 65536 ∧
    ∃ bytes, WriteMS3DFile exampleCodec true exampleResult = some bytes ∧
      bytes.length = 1406 := by
  have hV : exampleResult.vertices.length = 3 := rfl
  have hT : exampleResult.triangles.length = 3 := rfl
  have hG : exampleResult.groups.length = 3 := by decide
  have hS : totalTriangleIndices exampleResult.groups = 3 := by decide
  have hM : exampleResult.materials.length = 2 := rfl
  have hJ : exampleResult.joints.length = 3 := rfl
  obtain ⟨bytes, hb, _, _, _, _, _, _, _, _, hlen⟩ := binary_layout exampleCodec exampleResult
    (by rw [hV]; decide) (by rw [hT]; decide) (by rw [hG]; decide) (by rw [hM]; decide)
    (by rw [hJ]; decide)
  rw [hV, hT, hG, hS, hM, hJ] at hlen
  exact ⟨by rw [hV]; decide, by rw [hT]; decide, by rw [hG]; decide, by rw [hM]; decide,
    by rw [hJ]; decide, bytes, hb, hlen⟩

/-! ## Group names -/

theorem digitChar_value (k : Nat) (h : k < 10) : (Nat.digitChar k).toNat - 48 = k := by
  interval_cases k <;> rfl

theorem decimalValue_toDigitsCore (fuel : Nat) :
    ∀ (n : Nat) (ds : List Char), n < fuel →
      decimalValue 0 (Nat.toDigitsCore 10 fuel n ds) = decimalValue n ds := by
  induction fuel with
  | zero =>
    intro n ds h
    exact absurd h (Nat.not_lt_zero _)
  | succ fuel ih =>
    intro n ds h
    have hd : (Nat.digitChar (n % 10)).toNat - 48 = n % 10 :=
      digitChar_value _ (Nat.mod_lt _ (by decide))
    rw [Nat.toDigitsCore]
    by_cases h0 : n / 10 = 0
    · simp only [h0, if_true]
      simp only [decimalValue, List.foldl_cons, hd]
      congr 1
      omega
    · simp only [h0, if_false]
      rw [ih (n / 10) _ (by omega)]
      simp only [decimalValue, List.foldl_cons, hd]
      congr 1
      omega

theorem decimalValue_toString (n : Nat) : decimalValue 0 (toString n).data = n := by
  show decimalValue 0 (Nat.toDigitsCore 10 (n + 1) n []) = n
  rw [decimalValue_toDigitsCore (n + 1) n [] (Nat.lt_succ_self n)]
  rfl

theorem groupName_injective (a b : Nat) (h : groupName a = groupName b) : a = b := by
  unfold groupName at h
  have hdata := congrArg String.data h
  simp only [String.data_append, List.append_cancel_left_eq] at hdata
  have hval := congrArg (decimalValue 0) hdata
  rw [decimalValue_toString, decimalValue_toString] at hval
  omega

/-- Names in the loop state: the groups of the list and the current group are
named by their positions. -/
theorem names_foldl (faces : List geBody_Triangle) :
    ∀ st : GroupState,
      (st.groupList ++ [st.currentGroup]).map (fun g => g.name)
        = (List.range (st.groupList.length + 1)).map groupName →
      ((faces.foldl groupStep st).groupList ++ [(faces.foldl groupStep st).currentGroup]).map
          (fun g => g.name)
        = (List.range ((faces.foldl groupStep st).groupList.length + 1)).map groupName := by
  induction faces with
  | nil =>
    intro st h
    exact h
  | cons t ts ih =>
    intro st h
    rw [List.foldl_cons]
    apply ih
    by_cases hm : t.MaterialIndex = st.currentGroup.materialIndex
    · rw [groupStep_same st t hm]
      simpa using h
    · rw [groupStep_new st t hm]
      simp only [List.length_append, List.length_singleton]
      rw [List.map_append, h, List.range_succ (st.groupList.length + 1), List.map_append]
      rfl

/-- Names of the whole group list, by position. -/
theorem map_name_fillGroups (faces : List geBody_Triangle) :
    (fillGroups faces).map (fun g => g.name)
      = (List.range (fillGroups faces).length).map groupName := by
  have h := names_foldl faces (groupInit faces) rfl
  unfold fillGroups groupFinish
  split
  · rw [h, List.length_append, List.length_singleton]
  · rw [List.map_append, List.range_succ, List.map_append] at h
    exact (List.append_inj' h (by simp)).1

/-- Claim C15: the group at 1-based position `k` of the group list produced from
a face sequence is named `"Group k"` with `k` in decimal; the names are
pairwise distinct. -/
theorem group_naming (faces : List geBody_Triangle) :
    (∀ (k : Nat) (g : ms3d_group_t), (fillGroups faces).get? k = some g →
      g.name = "Group " ++ toString (k + 1)) ∧
    (fillGroups faces).map (fun g => g.name)
      = (List.range (fillGroups faces).length).map (fun k => "Group " ++ toString (k + 1)) ∧
    ((fillGroups faces).map (fun g => g.name)).Nodup := by
  have h := map_name_fillGroups faces
  refine ⟨?_, h, ?_⟩
  · intro k g hg
    have hk : k < (fillGroups faces).length := by
      by_contra hge
      rw [List.get?_eq_none.mpr (Nat.le_of_not_lt hge)] at hg
      exact absurd hg (by simp)
    have hget := congrArg (fun l => l.get? k) h
    simp only [List.get?_eq_getElem?, List.getElem?_map, List.getElem?_range hk,
      Option.map_some'] at hget
    rw [List.get?_eq_getElem?] at hg
    rw [hg] at hget
    exact Option.some.inj hget
  · rw [h]
    exact List.Nodup.map (fun a b hab => groupName_injective a b hab) (List.nodup_range _)

/-- Claim C15 on the faces with material indices 2, 5, 2: the third group is
named `"Group 3"`. -/
theorem group_naming_witness :
    ((fillGroups exampleFaces).get? 2).isSome = true ∧
    ∀ g, (fillGroups exampleFaces).get? 2 = some g → g.name = "Group 3" :=
  ⟨by decide, fun g hg => ((group_naming exampleFaces).1 2 g hg).trans (by decide)⟩

/-! ## Euler angles against the reference formulas -/

/-- Claim C16 (exact arithmetic, for a C library with `asin(1) = M_PI/2` and
`asin(-1) = -M_PI/2`): `QuaternionToEuler` returns the angles of the reference
formulas for every quaternion; in particular the branch on `|sinp| >= 1` with
`copysign(M_PI / 2, sinp)` agrees with `asin` of the clamped argument. -/
theorem euler_matches_reference (rt : Runtime) (hasin1 : rt.asin 1 = M_PI / 2)
    (hasin2 : rt.asin (-1) = -(M_PI / 2)) (q : geQuaternion) :
    QuaternionToEuler rt q = referenceEuler rt q ∧
    (if |sinp q| ≥ 1 then copysign (M_PI / 2) (sinp q) else rt.asin (sinp q))
      = rt.asin (clamp (sinp q) (-1) 1) := by
  have hpitch : (if |sinp q| ≥ 1 then copysign (M_PI / 2) (sinp q) else rt.asin (sinp q))
      = rt.asin (clamp (sinp q) (-1) 1) := by
    by_cases h1 : 1 ≤ sinp q
    · have hc : clamp (sinp q) (-1) 1 = 1 := by
        unfold clamp
        rw [min_eq_right h1, max_eq_right (by norm_num)]
      rw [hc, hasin1]
      exact (gimbal_lock_value rt q).1 h1
    · by_cases h2 : sinp q ≤ -1
      · have hc : clamp (sinp q) (-1) 1 = -1 := by
          unfold clamp
          rw [min_eq_left (by linarith), max_eq_left h2]
        rw [hc, hasin2]
        exact (gimbal_lock_value rt q).2 h2
      · have hlt : ¬ |sinp q| ≥ 1 := by
          rw [ge_iff_le, le_abs]
          intro h
          rcases h with h | h
          · exact h1 h
          · exact h2 (by linarith)
        have hc : clamp (sinp q) (-1) 1 = sinp q := by
          unfold clamp
          rw [min_eq_left (by linarith), max_eq_right (by linarith)]
        rw [if_neg hlt, hc]
  refine ⟨?_, hpitch⟩
  have hX : (QuaternionToEuler rt q).X = (referenceEuler rt q).X := by
    simp only [QuaternionToEuler, referenceEuler, sq]
  have hY : (QuaternionToEuler rt q).Y = (referenceEuler rt q).Y := hpitch
  have hZ : (QuaternionToEuler rt q).Z = (referenceEuler rt q).Z := by
    simp only [QuaternionToEuler, referenceEuler, sq]
  cases hq : QuaternionToEuler rt q
  cases hr : referenceEuler rt q
  rw [hq, hr] at hX hY hZ
  simp only at hX hY hZ
  rw [hX, hY, hZ]

/-- Claim C16 with the linear runtime, at the quaternion `(w, x, y, z) =
(1, 0, 1, 0)` whose pitch argument 2 saturates. -/
theorem euler_matches_reference_witness :
    linearRuntime.asin 1 = M_PI / 2 ∧ linearRuntime.asin (-1) = -(M_PI / 2) ∧
    QuaternionToEuler linearRuntime { W := 1, X := 0, Y := 1, Z := 0 }
      = referenceEuler linearRuntime { W := 1, X := 0, Y := 1, Z := 0 } :=
  ⟨by norm_num [linearRuntime], by norm_num [linearRuntime],
   (euler_matches_reference linearRuntime (by norm_num [linearRuntime])
     (by norm_num [linearRuntime]) { W := 1, X := 0, Y := 1, Z := 0 }).1⟩

/-! ## Termination of the resolver -/

/-- With less fuel than the length of the chain the resolver does not return. -/
theorem GetGlobalTransformationMatrix_none_of_lt (parentGlobal : geXForm3d) (body : geBody)
    (b : Int) (chain : List geBody_Bone) (hc : BoneChain body b chain) :
    ∀ fuel, fuel < chain.length → ∀ g,
      GetGlobalTransformationMatrix parentGlobal body fuel b g = none := by
  induction hc with
  | root b bone hb hp =>
    intro fuel hfuel g
    have h0 : fuel = 0 := by simpa using hfuel
    subst h0
    rfl
  | child b bone chain hb hp hchain ih =>
    intro fuel hfuel g
    cases fuel with
    | zero => rfl
    | succ f =>
      rw [GetGlobalTransformationMatrix_succ _ _ _ _ _ _ hb, if_pos hp,
        ih f (by simp at hfuel; omega) parentGlobal]
      rfl

/-- The counted resolver returns what the resolver returns. -/
theorem GetGlobalTransformationMatrixCounted_fst (parentGlobal : geXForm3d) (body : geBody)
    (fuel : Nat) :
    ∀ (b : Int) (g : geXForm3d),
      (GetGlobalTransformationMatrixCounted parentGlobal body fuel b g).map Prod.fst
        = GetGlobalTransformationMatrix parentGlobal body fuel b g := by
  induction fuel with
  | zero =>
    intro b g
    rfl
  | succ f ih =>
    intro b g
    rw [GetGlobalTransformationMatrixCounted, GetGlobalTransformationMatrix]
    by_cases hb : b = -1
    · simp [hb]
    · simp only [hb, if_false]
      cases hread : readAt body.BoneArray b with
      | none => rfl
      | some bone =>
        simp only
        by_cases hp : bone.ParentBoneIndex = -1
        · simp [hp]
        · simp only [ne_eq, hp, not_false_eq_true, if_true]
          rw [← ih bone.ParentBoneIndex parentGlobal]
          cases GetGlobalTransformationMatrixCounted parentGlobal body f bone.ParentBoneIndex
            parentGlobal <;> rfl

/-- With fuel for the chain the counted resolver makes one recursive call per
ancestor. -/
theorem GetGlobalTransformationMatrixCounted_of_chain (parentGlobal : geXForm3d) (body : geBody)
    (b : Int) (chain : List geBody_Bone) (hc : BoneChain body b chain) :
    ∀ fuel, chain.length ≤ fuel → ∀ g,
      GetGlobalTransformationMatrixCounted parentGlobal body fuel b g
        = some (chainProduct (chain.map (fun bone => bone.AttachmentMatrix)),
            ancestorCount chain) := by
  induction hc with
  | root b bone hb hp =>
    intro fuel hfuel g
    obtain ⟨f, rfl⟩ : ∃ f, fuel = f + 1 := ⟨fuel - 1, by simp at hfuel; omega⟩
    rw [GetGlobalTransformationMatrixCounted]
    simp [readAt_ne_neg_one _ _ _ hb, hb, hp, chainProduct, ancestorCount]
  | child b bone chain hb hp hchain ih =>
    intro fuel hfuel g
    obtain ⟨f, rfl⟩ : ∃ f, fuel = f + 1 := ⟨fuel - 1, by simp at hfuel; omega⟩
    have hne := BoneChain_ne_nil _ _ _ hchain
    have hlen : 0 < chain.length := List.length_pos.mpr hne
    rw [GetGlobalTransformationMatrixCounted]
    simp only [readAt_ne_neg_one _ _ _ hb, if_false, hb, ne_eq, hp, not_false_eq_true, if_true]
    rw [ih f (by simp at hfuel; omega) parentGlobal]
    simp only [List.map_append, List.map_singleton]
    rw [chainProduct_append_singleton _ _ (by simpa using hne)]
    simp only [ancestorCount, List.length_append, List.length_singleton]
    congr 2
    omega

/-- Claim C17: for a bone with a parent chain that reaches `-1` through valid
indices, `GetGlobalTransformationMatrix` returns as soon as the recursion
budget covers the chain (one activation per bone of the chain) and no bound
other than that is involved; the run makes exactly as many recursive calls as
the bone has ancestors; with a smaller budget the run does not complete. -/
theorem resolver_termination (parentGlobal : geXForm3d) (body : geBody) (b : Int)
    (chain : List geBody_Bone) (hc : BoneChain body b chain) :
    (∀ fuel, chain.length ≤ fuel → ∀ g,
      GetGlobalTransformationMatrix parentGlobal body fuel b g
        = some (chainProduct (chain.map (fun bone => bone.AttachmentMatrix))) ∧
      (GetGlobalTransformationMatrixCounted parentGlobal body fuel b g).map Prod.snd
        = some (ancestorCount chain) ∧
      (GetGlobalTransformationMatrixCounted parentGlobal body fuel b g).map Prod.fst
        = GetGlobalTransformationMatrix parentGlobal body fuel b g) ∧
    (∀ fuel, fuel < chain.length → ∀ g,
      GetGlobalTransformationMatrix parentGlobal body fuel b g = none) := by
  refine ⟨fun fuel hfuel g => ⟨?_, ?_, ?_⟩, ?_⟩
  · exact GetGlobalTransformationMatrix_of_chain parentGlobal body b chain hc fuel hfuel g
  · rw [GetGlobalTransformationMatrixCounted_of_chain parentGlobal body b chain hc fuel hfuel g]
    rfl
  · exact GetGlobalTransformationMatrixCounted_fst parentGlobal body fuel b g
  · exact GetGlobalTransformationMatrix_none_of_lt parentGlobal body b chain hc

/-- Claim C17 on bone `B` of the example body: two ancestors, two recursive
calls, and a budget of 3 activations is enough while 2 is not. -/
theorem resolver_termination_witness :
    BoneChain exampleBody 2 exampleBones ∧
    (GetGlobalTransformationMatrixCounted default exampleBody 3 2 default).map Prod.snd = some 2 ∧
    GetGlobalTransformationMatrix default exampleBody 2 2 default = none :=
  ⟨exampleChain,
   ((resolver_termination default exampleBody 2 exampleBones exampleChain).1 3
      (by decide) default).2.1,
   (resolver_termination default exampleBody 2 exampleBones exampleChain).2 2
      (by decide) default⟩

/-! ## Empty groups and the count field of a group -/

/-- Claim C18 at a single face of material index 200: the group list has an
empty first group, with `numtriangles` 0 and no triangle index. -/
theorem empty_group_at_material_200 :
    (fillGroups [faceOfMaterial 200]).map
        (fun g => (g.name, g.numtriangles, g.triangleIndices, g.materialIndex))
      = [("Group 1", 0, [], -56), ("Group 2", 1, [0], -56)] := by
  decide

/-- From a state whose groups, the current one included, hold a triangle index,
the loop only produces groups that hold one. -/
theorem nonempty_foldl (ts : List geBody_Triangle) :
    ∀ st : GroupState,
      (∀ g ∈ st.groupList ++ [st.currentGroup], g.triangleIndices ≠ []) →
      ∀ g ∈ (ts.foldl groupStep st).groupList ++ [(ts.foldl groupStep st).currentGroup],
        g.triangleIndices ≠ [] := by
  induction ts with
  | nil =>
    intro st h
    exact h
  | cons t ts ih =>
    intro st h
    rw [List.foldl_cons]
    apply ih
    by_cases hm : t.MaterialIndex = st.currentGroup.materialIndex
    · rw [groupStep_same st t hm]
      intro g hg
      simp only [List.mem_append, List.mem_singleton] at hg
      rcases hg with hg | hg
      · exact h g (List.mem_append_left _ hg)
      · subst hg
        simp
    · rw [groupStep_new st t hm]
      intro g hg
      simp only [List.mem_append, List.mem_singleton] at hg
      rcases hg with hg | hg
      · exact h g (by simpa using hg)
      · subst hg
        simp

/-- When the material index of the first face fits `char`, no group of the
group list is empty. -/
theorem no_empty_group_of_first_inRange (faces : List geBody_Triangle)
    (h : InCharRange (firstMaterialIndex faces)) :
    ∀ g ∈ fillGroups faces, g.triangleIndices ≠ [] := by
  cases faces with
  | nil =>
    intro g hg
    exact absurd hg (List.not_mem_nil _)
  | cons t ts =>
    intro g hg
    have hm : t.MaterialIndex = (groupInit (t :: ts)).currentGroup.materialIndex :=
      (toChar_of_inRange _ h).symm
    apply nonempty_foldl ts (groupStep (groupInit (t :: ts)) t) _ g
      (mem_of_mem_groupFinish _ g hg)
    rw [groupStep_same _ _ hm]
    intro g1 hg1
    simp only [List.mem_append, List.mem_singleton] at hg1
    rcases hg1 with hg1 | hg1
    · exact absurd hg1 (List.not_mem_nil _)
    · subst hg1
      simp

/-- The count field of every group of the loop state is the length of its list
modulo 65536; preserved by the loop. -/
theorem numtriangles_foldl (ts : List geBody_Triangle) :
    ∀ st : GroupState,
      (∀ g ∈ st.groupList ++ [st.currentGroup],
        g.numtriangles = g.triangleIndices.length % 65536) →
      ∀ g ∈ (ts.foldl groupStep st).groupList ++ [(ts.foldl groupStep st).currentGroup],
        g.numtriangles = g.triangleIndices.length % 65536 := by
  induction ts with
  | nil =>
    intro st h
    exact h
  | cons t ts ih =>
    intro st h
    rw [List.foldl_cons]
    apply ih
    have hcur := h st.currentGroup (by simp)
    by_cases hm : t.MaterialIndex = st.currentGroup.materialIndex
    · rw [groupStep_same st t hm]
      intro g hg
      simp only [List.mem_append, List.mem_singleton] at hg
      rcases hg with hg | hg
      · exact h g (List.mem_append_left _ hg)
      · subst hg
        simp only [incUInt16, List.length_append, List.length_singleton]
        omega
    · rw [groupStep_new st t hm]
      intro g hg
      simp only [List.mem_append, List.mem_singleton] at hg
      rcases hg with hg | hg
      · exact h g (by simpa using hg)
      · subst hg
        rfl

theorem numtriangles_fillGroups (faces : List geBody_Triangle) :
    ∀ g ∈ fillGroups faces, g.numtriangles = g.triangleIndices.length % 65536 := by
  intro g hg
  apply numtriangles_foldl faces (groupInit faces) _ g (mem_of_mem_groupFinish _ g hg)
  intro g1 hg1
  have : g1 = (groupInit faces).currentGroup := by simpa [groupInit] using hg1
  subst this
  rfl

theorem length_le_allTriangleIndices (groups : List ms3d_group_t) (g : ms3d_group_t)
    (hg : g ∈ groups) : g.triangleIndices.length ≤ (allTriangleIndices groups).length := by
  induction groups with
  | nil => exact absurd hg (List.not_mem_nil _)
  | cons g0 gs ih =>
    simp only [allTriangleIndices, List.flatMap_cons, List.length_append] at ih ⊢
    rcases List.mem_cons.mp hg with rfl | hmem
    · omega
    · have := ih hmem
      omega

theorem length_allTriangleIndices_fillGroups (faces : List geBody_Triangle)
    (h : faces.length < 65536) :
    (allTriangleIndices (fillGroups faces)).length = faces.length := by
  unfold fillGroups
  rw [allTriangleIndices_foldl faces (groupInit faces) rfl (Nat.zero_le _)
    (by simpa [groupInit] using h)]
  simp [groupInit, allTriangleIndices, openGroup, ms3d_group_t.empty]

/-- Claim C19: for every face sequence (its length `FaceCount` is a
`geBody_Index`), every group produced from it has `numtriangles` equal to the
length of its `triangleIndices`, so the 16-bit count that `WriteMS3DFile`
writes for the group is the number of 16-bit triangle indices that it writes
after it. No condition is put on the material indices. -/
theorem group_count_field (faces : List geBody_Triangle)
    (hlen : faces.length ≤ geBody_Index_MAX) :
    ∀ g ∈ fillGroups faces,
      g.numtriangles = g.triangleIndices.length ∧
      writeGroup g = u8 g.flags ++ charField 32 g.name ++ u16le g.triangleIndices.length
        ++ g.triangleIndices.flatMap u16le ++ charByte g.materialIndex ∧
      decodeU16 (u16le g.numtriangles) = g.triangleIndices.length ∧
      (g.triangleIndices.flatMap u16le).length = 2 * g.triangleIndices.length := by
  intro g hg
  unfold geBody_Index_MAX at hlen
  have hmod := numtriangles_fillGroups faces g hg
  have hle := length_le_allTriangleIndices _ g hg
  rw [length_allTriangleIndices_fillGroups faces (by omega)] at hle
  have hnum : g.numtriangles = g.triangleIndices.length := by omega
  refine ⟨hnum, ?_, ?_, ?_⟩
  · rw [writeGroup, hnum]
  · rw [hnum]
    simp only [u16le, decodeU16]
    omega
  · rw [length_flatMap_const u16le 2 (fun _ => rfl), Nat.mul_comm]

/-- Claim C19 on the faces with material indices 2, 5, 2 and on a single face of
material index 200 (an empty group with count 0 and a group with count 1). -/
theorem group_count_field_witness :
    (exampleFaces.length ≤ geBody_Index_MAX ∧
      ∀ g ∈ fillGroups exampleFaces, g.numtriangles = g.triangleIndices.length) ∧
    ([faceOfMaterial 200].length ≤ geBody_Index_MAX ∧
      ∀ g ∈ fillGroups [faceOfMaterial 200], g.numtriangles = g.triangleIndices.length) :=
  ⟨⟨by decide, fun g hg => (group_count_field exampleFaces (by decide) g hg).1⟩,
   ⟨by decide, fun g hg => (group_count_field [faceOfMaterial 200] (by decide) g hg).1⟩⟩

/-! ## Count prefix of a written vector -/

theorem toUInt16_natCast (n : Nat) : toUInt16 (n : Int) = n % 65536 := by
  unfold toUInt16
  omega

/-- Claim C20: for a vector of `n` records of `size` bytes each (any `n`),
`WriteVectorToFile` with a 16-bit size type writes the two bytes of
`n mod 65536` and then the records of the first `n mod 65536` elements, which
are `(n mod 65536) * size` bytes: the count prefix is the number of records
that follow it. -/
theorem count_prefix_matches {α : Type} (encode : α → List Nat) (size : Nat)
    (hsize : ∀ x, (encode x).length = size) (data : List α) :
    WriteVectorToFile encode data
      = u16le (data.length % 65536) ++ (data.take (data.length % 65536)).flatMap encode ∧
    decodeU16 (WriteVectorToFile encode data) = data.length % 65536 ∧
    (data.take (data.length % 65536)).length = data.length % 65536 ∧
    ((data.take (data.length % 65536)).flatMap encode).length = (data.length % 65536) * size ∧
    (WriteVectorToFile encode data).length = 2 + (data.length % 65536) * size := by
  have hle : data.length % 65536 ≤ data.length := Nat.mod_le _ _
  have htake : (data.take (data.length % 65536)).length = data.length % 65536 := by
    rw [List.length_take]
    omega
  have hw : WriteVectorToFile encode data
      = u16le (data.length % 65536) ++ (data.take (data.length % 65536)).flatMap encode := by
    unfold WriteVectorToFile
    simp only [toUInt16_natCast]
  have hrec : ((data.take (data.length % 65536)).flatMap encode).length
      = (data.length % 65536) * size := by
    rw [length_flatMap_const encode size hsize, htake]
  refine ⟨hw, ?_, htake, hrec, ?_⟩
  · rw [hw]
    simp only [u16le, decodeU16, List.cons_append]
    omega
  · rw [hw, List.length_append, hrec]
    rfl

/-- Claim C20 on a vector of 65537 two-byte records: the prefix is 1 and one
record follows. -/
theorem count_prefix_matches_witness :
    (∀ x : Nat, ([x, x] : List Nat).length = 2) ∧
    WriteVectorToFile (fun x : Nat => [x, x]) (List.replicate 65537 7) = [1, 0, 7, 7] := by
  refine ⟨fun _ => rfl, ?_⟩
  have h := (count_prefix_matches (fun x : Nat => [x, x]) 2 (fun _ => rfl)
    (List.replicate 65537 7)).1
  rw [List.length_replicate] at h
  have hmod : 65537 % 65536 = 1 := by decide
  rw [hmod, List.take_replicate] at h
  rw [h]
  decide

end act2ms3d
